import Mathlib

/-!
# TelemetryView: the telemetry acquisition and buffering core of `src/main.cpp`

A shallow embedding of the parts of `main.cpp` that receive, decode and buffer
telemetry frames, followed by theorems about them.

Modelling conventions

* `std::string` is `List Char`. Frames come from one serial read, so they are far
  shorter than `2^31` characters: the `size_t -> int` conversion of a position is
  exact, and `npos` becomes `-1`.
* `int` values are `Int`; `std::stoi` range-checks its result against the 32-bit
  `int` range, which is modelled.
* `float` values are `Int`: every float the program stores is an `int` converted to
  `float` (`stoi(..) / 1.0f`, `currentTime` passed as `float x`), which `toFloat`
  rounds to the nearest binary32 value (an integer again, exact up to `2^24`), the
  spans `10.0f` and `20.0f`, the exact `fmodf` of such values, or the `sqrt` in
  `vecMag` (see there).
* An exception escapes `main` (there is no handler anywhere in the file): the state
  at the `throw` is kept, and the loop stops.
-/

namespace TelemetryView

/-! ## Library functions used by `main.cpp` -/

/-- The two exceptions `std::stoi` and `std::string::substr` can throw. -/
inductive Exn where
  | invalid_argument
  | out_of_range
deriving DecidableEq, Repr

deriving instance DecidableEq for Except

/-- The call `std::string::find(c, pos)` after conversion of the result to `int`:
the first index `>= pos` holding `c`, or `-1` (`npos`) when there is none.
`pos` is the `size_t` conversion of an `int`, negative values become huge. -/
def find (s : List Char) (c : Char) (pos : Int) : Int :=
  if pos < 0 then -1
  else
    let rest := s.drop pos.toNat
    let i := rest.indexOf c
    if i < rest.length then pos + (i : Int) else -1

/-- The call `std::string::find_first_of(c)`. -/
def find_first_of (s : List Char) (c : Char) : Int := find s c 0

/-- The call `std::string::substr(pos, n)`, both arguments being `int` expressions converted to
`size_t`: throws `out_of_range` when `pos > size()`; a negative `n` converts to a
count larger than any string, so the rest of the string is returned. -/
def substr (s : List Char) (pos : Int) (n : Int) : Except Exn (List Char) :=
  if pos < 0 ∨ (s.length : Int) < pos then .error .out_of_range
  else
    let rest := s.drop pos.toNat
    if n < 0 then .ok rest else .ok (rest.take n.toNat)

/-- The test `isspace` in the "C" locale: space and the control characters 9..13. -/
def isspace (c : Char) : Bool := c.toNat = 32 || (9 ≤ c.toNat && c.toNat ≤ 13)

/-- The test `isdigit`. -/
def isdigit (c : Char) : Bool := 48 ≤ c.toNat && c.toNat ≤ 57

/-- Value of a run of decimal digits, most significant first. -/
def digitsVal (ds : List Char) : Nat := ds.foldl (fun acc c => 10 * acc + (c.toNat - 48)) 0

/-- The call `std::stoi(str)` (base 10): skip leading white space, read an optional sign and the
longest run of digits; `invalid_argument` when there is no digit, `out_of_range`
when the value does not fit a 32-bit `int`. Whatever follows the digits is ignored. -/
def stoi (str : List Char) : Except Exn Int :=
  let s1 := str.dropWhile isspace
  let neg := s1.head? = some '-'
  let s2 := if s1.head? = some '-' ∨ s1.head? = some '+' then s1.tail else s1
  let ds := s2.takeWhile isdigit
  if ds.isEmpty then .error .invalid_argument
  else
    let v : Int := if neg then -(digitsVal ds : Int) else (digitsVal ds : Int)
    if v < -2147483648 ∨ 2147483647 < v then .error .out_of_range else .ok v

/-- The call `fmodf(x, y)`: the remainder of the division truncated towards zero (it has the
sign of `x`); exact in floating point. -/
def fmodf (x y : Int) : Int := Int.tmod x y

/-- The number of low bits of `a` that do not fit a significand of 24 bits: the least
`e` with `a < 2^(24 + e)` (`fuel` bounds the search). -/
def excessBits : Nat → Nat → Nat
  | 0, _ => 0
  | fuel + 1, a => if a < 16777216 then 0 else excessBits fuel (a / 2) + 1

/-- The natural number `a` rounded to 24 significant bits, to nearest, ties to the even
significand. -/
def roundNat (a : Nat) : Nat :=
  let e := excessBits 128 a
  let q := a / 2 ^ e
  let r := a % 2 ^ e
  if 2 ^ e < 2 * r ∨ (2 * r = 2 ^ e ∧ q % 2 = 1) then (q + 1) * 2 ^ e else q * 2 ^ e

/-- The conversion of an `int` to `float` (binary32): the nearest representable value,
which is an integer; exact when the absolute value is at most `2^24`. -/
def toFloat (n : Int) : Int :=
  if n < 0 then -(roundNat n.natAbs : Int) else (roundNat n.natAbs : Int)

/-- Largest `k <= fuel` with `k * k <= n`. -/
def sqrtDown (n : Nat) : Nat → Nat
  | 0 => 0
  | k + 1 => if (k + 1) * (k + 1) ≤ n then k + 1 else sqrtDown n k

/-- The function `sqrt` on the integer-valued floats of this model: the integer part
of the square root. It is the value of the source's `sqrt` exactly when the argument
is a perfect square (`sqrt 0 = 0`, `sqrt 25 = 5`); elsewhere the source's result is
not an integer and has no counterpart in this model: there the theorems about
`ingest` leave the value appended to the derived channel unspecified. -/
def sqrt (v : Int) : Int := (sqrtDown v.toNat v.toNat : Nat)

/-! ## `ImVec2` and `RollingBuffer` -/

/-- The type `ImVec2`: a point `(x, y)`. -/
structure ImVec2 where
  x : Int
  y : Int
deriving DecidableEq, Repr

/-- The operator `ImVec2::operator[]`: index 0 is `x`, index 1 is `y`. -/
def ImVec2.idx (v : ImVec2) (i : Nat) : Int := if i = 0 then v.x else v.y

/-- The call `ImVector<ImVec2>::back()`; only called on a non-empty vector. -/
def back (Data : List ImVec2) : ImVec2 := Data.getLastD ⟨0, 0⟩

/-- The type `struct RollingBuffer`. -/
structure RollingBuffer where
  Span : Int
  Data : List ImVec2
deriving DecidableEq, Repr

/-- The constructor `RollingBuffer()`: `Span = 10.0f`, no points (`reserve` only sets
the capacity). -/
def RollingBuffer.new : RollingBuffer := { Span := 10, Data := [] }

/-- The method `RollingBuffer::AddPoint(x, y)`. -/
def RollingBuffer.AddPoint (b : RollingBuffer) (x y : Int) : RollingBuffer :=
  let xmod := fmodf x b.Span
  let Data := if !b.Data.isEmpty && decide (xmod < (back b.Data).x) then b.Data.take 0 else b.Data
  { b with Data := Data ++ [⟨xmod, y⟩] }

/-- One call of `AddPoint(x, y)` on a buffer whose `Span` field was set to `span` just
before (the field is public and `main` assigns it). -/
structure Call where
  span : Int
  x : Int
  y : Int
deriving DecidableEq, Repr

/-- A sequence of `Span` assignments and `AddPoint` calls on one buffer. -/
def RollingBuffer.calls (b : RollingBuffer) : List Call → RollingBuffer
  | [] => b
  | c :: cs => RollingBuffer.calls ({ b with Span := c.span }.AddPoint c.x c.y) cs

/-- The buffer as `main` seeds it: constructed, then `AddPoint(0, 0)`. -/
def RollingBuffer.seeded : RollingBuffer := RollingBuffer.new.AddPoint 0 0

/-- The phases of the stored points are non-decreasing from first to last. -/
def nonDecreasing (Data : List ImVec2) : Prop := Data.Pairwise (fun a b => a.x ≤ b.x)

instance (Data : List ImVec2) : Decidable (nonDecreasing Data) := by
  unfold nonDecreasing; infer_instance

/-- The function `float vecMag(float a, float b, float c)`. -/
def vecMag (a b c : Int) : Int := sqrt (a * a + b * b + c * c)

/-! ## The serial task masks and the command dispatcher -/

/-- The mask `#define SEND_ENABLE 1`. -/
def SEND_ENABLE : Nat := 1
/-- The mask `#define SEND_DISABLE 2`. -/
def SEND_DISABLE : Nat := 2
/-- The mask `#define READ_SERIAL 4`. -/
def READ_SERIAL : Nat := 4

/-- An operation performed on the serial port `Serial`. -/
inductive Op where
  | write (c : Char)
  | read
deriving DecidableEq, Repr

/-- The function `payloadReleaseEnable()`: `Serial.WriteSerialPort` of the byte `r`. -/
def payloadReleaseEnable (wire : List Op) : List Op := wire ++ [Op.write 'r']

/-- The function `payloadReleaseDisable()`: `Serial.WriteSerialPort` of the byte `u`. -/
def payloadReleaseDisable (wire : List Op) : List Op := wire ++ [Op.write 'u']

/-- The function `GetSerialData()`: one `Serial.ReadSerialPort`; `reply` is the text the port delivers. -/
def GetSerialData (wire : List Op) (reply : List Char) : List Char × List Op :=
  (reply, wire ++ [Op.read])

/-- The function `serialCommTasks()`, reading the global `passedSerialParams`. `wire` is the list of
port operations performed so far; returns the text and the extended list. -/
def serialCommTasks (passedSerialParams : Nat) (wire : List Op) (reply : List Char) :
    List Char × List Op :=
  let output : List Char := []
  let wire := if passedSerialParams &&& SEND_ENABLE ≠ 0 then payloadReleaseEnable wire else wire
  let wire := if passedSerialParams &&& SEND_DISABLE ≠ 0 then payloadReleaseDisable wire else wire
  if passedSerialParams &&& READ_SERIAL ≠ 0 then GetSerialData wire reply else (output, wire)

/-! ## The state of `main` -/

/-- The function a background task runs. -/
inductive Task where
  | GetSerialData
  | serialCommTasks
deriving DecidableEq, Repr

/-- The `std::future<string> dataThread`: its task still runs, or its result waits
for `get()`. -/
inductive Future where
  | running (task : Task)
  | ready (text : List Char)
deriving DecidableEq, Repr

/-- The variables of `main` (and the global `passedSerialParams`) that the telemetry
code reads or writes. `wire` records the operations on `Serial`; `dataFile` the
values streamed to `data.csv` after its header; `launched`, `completed` and `drained`
count the `std::async` calls, the tasks that finished and the `get()` calls;
`crashed` is set when an exception left `main`. -/
structure Main where
  lastData : List Char
  logData : Bool
  dataFile : List Int
  state : Nat
  altitude : RollingBuffer
  xOrient : RollingBuffer
  yOrient : RollingBuffer
  zOrient : RollingBuffer
  xAccel : RollingBuffer
  yAccel : RollingBuffer
  zAccel : RollingBuffer
  AccelerationMagnitude : RollingBuffer
  xMag : RollingBuffer
  yMag : RollingBuffer
  zMag : RollingBuffer
  force : RollingBuffer
  temp : RollingBuffer
  time : RollingBuffer
  history : Int
  dataThread : Future
  serialActions : Nat
  passedSerialParams : Nat
  wire : List Op
  launched : Nat
  completed : Nat
  drained : Nat
  crashed : Option Exn
deriving DecidableEq, Repr

/-- The state when the main loop is entered (lines 164-221): every buffer seeded with
`AddPoint(0, 0)`, the first task `std::async(GetSerialData)` launched. -/
def Main.init : Main :=
  { lastData := "Data:00:00:00:00:00:00:00:00:00:00:00:00:".toList
    logData := false
    dataFile := []
    state := 0
    altitude := RollingBuffer.seeded
    xOrient := RollingBuffer.seeded
    yOrient := RollingBuffer.seeded
    zOrient := RollingBuffer.seeded
    xAccel := RollingBuffer.seeded
    yAccel := RollingBuffer.seeded
    zAccel := RollingBuffer.seeded
    AccelerationMagnitude := RollingBuffer.seeded
    xMag := RollingBuffer.seeded
    yMag := RollingBuffer.seeded
    zMag := RollingBuffer.seeded
    force := RollingBuffer.seeded
    temp := RollingBuffer.seeded
    time := RollingBuffer.seeded
    history := 20
    dataThread := Future.running Task.GetSerialData
    serialActions := 0
    passedSerialParams := 0
    wire := []
    launched := 1
    completed := 0
    drained := 0
    crashed := none }

/-- The rolling channels in the order in which the ingest code appends to them. -/
def Main.chans (m : Main) : List RollingBuffer :=
  [m.xOrient, m.yOrient, m.zOrient, m.xAccel, m.yAccel, m.zAccel, m.xMag, m.yMag, m.zMag,
   m.AccelerationMagnitude, m.force, m.temp, m.time, m.altitude]

/-! ## Frame parsing and channel ingest (lines 286-330) -/

/-- The array `int delimiterPositions[16]` as filled by lines 292-297, read at index `i`. -/
def delimiterPositions (lastData : List Char) : Nat → Int
  | 0 => find_first_of lastData ':'
  | i + 1 => find lastData ':' (delimiterPositions lastData i + 1)

/-- The expression `stoi(lastData.substr(pos, n))` evaluated in state `m`; an exception leaves with the
state reached so far. -/
def stoiSubstr (m : Main) (pos n : Int) : Except (Exn × Main) Int :=
  match substr m.lastData pos n >>= stoi with
  | .ok v => .ok v
  | .error e => .error (e, m)

/-- Lines 286-330: the body of `if (count(incoming.begin(), incoming.end(), ':') >= 13)`
with its guard. `Except.error (e, m)` is: exception `e` was thrown in state `m`. The
arguments of `AddPoint(float x, float y)` are the `int currentTime` and the `int` of
`stoi` divided by `1.0f`: both are converted to `float`. -/
def ingest (m : Main) (incoming : List Char) (currentTime : Int) : Except (Exn × Main) Main :=
  if incoming.count ':' ≥ 13 then
    let m := { m with lastData := incoming }
    if m.lastData.length ≥ 10 then
      let d := delimiterPositions m.lastData
      do
        let v ← stoiSubstr m (d 1 + 1) (d 2 - 1)
        let m := { m with xOrient := m.xOrient.AddPoint (toFloat currentTime) (toFloat v) }
        let v ← stoiSubstr m (d 2 + 1) (d 3 - 1)
        let m := { m with yOrient := m.yOrient.AddPoint (toFloat currentTime) (toFloat v) }
        let v ← stoiSubstr m (d 3 + 1) (d 4 - 1)
        let m := { m with zOrient := m.zOrient.AddPoint (toFloat currentTime) (toFloat v) }
        let v ← stoiSubstr m (d 4 + 1) (d 5 - 1)
        let m := { m with xAccel := m.xAccel.AddPoint (toFloat currentTime) (toFloat v) }
        let v ← stoiSubstr m (d 5 + 1) (d 6 - 1)
        let m := { m with yAccel := m.yAccel.AddPoint (toFloat currentTime) (toFloat v) }
        let v ← stoiSubstr m (d 6 + 1) (d 7 - 1)
        let m := { m with zAccel := m.zAccel.AddPoint (toFloat currentTime) (toFloat v) }
        let v ← stoiSubstr m (d 7 + 1) (d 8 - 1)
        let m := { m with xMag := m.xMag.AddPoint (toFloat currentTime) (toFloat v) }
        let v ← stoiSubstr m (d 8 + 1) (d 9 - 1)
        let m := { m with yMag := m.yMag.AddPoint (toFloat currentTime) (toFloat v) }
        let v ← stoiSubstr m (d 9 + 1) (d 10 - 1)
        let m := { m with zMag := m.zMag.AddPoint (toFloat currentTime) (toFloat v) }
        let mag := vecMag ((back m.xAccel.Data).idx 0) ((back m.yAccel.Data).idx 0)
          ((back m.zAccel.Data).idx 0)
        let m := { m with AccelerationMagnitude := m.AccelerationMagnitude.AddPoint (toFloat currentTime) mag }
        let v ← stoiSubstr m (d 10 + 1) (d 11 - 1)
        let m := { m with force := m.force.AddPoint (toFloat currentTime) (toFloat v) }
        let v ← stoiSubstr m (d 11 + 1) (d 12 - 1)
        let m := { m with temp := m.temp.AddPoint (toFloat currentTime) (toFloat v) }
        let v ← stoiSubstr m (d 12 + 1) (d 13 - 1)
        let m := { m with time := m.time.AddPoint (toFloat currentTime) (toFloat v) }
        let v ← stoiSubstr m (d 14 + 1) (d 15)
        let m := { m with altitude := m.altitude.AddPoint (toFloat currentTime) (toFloat v) }
        if m.logData then
          pure { m with dataFile := m.dataFile ++
                  [(back m.xOrient.Data).x, (back m.yOrient.Data).x, (back m.zOrient.Data).x,
                   (back m.xAccel.Data).x, (back m.yAccel.Data).x, (back m.zAccel.Data).x] }
        else pure m
    else pure m
  else pure m

/-! ## The main loop -/

/-- The function `LinkedText(bool active, char text[])`: the text is shown highlighted when `active`,
disabled otherwise; the result is the pair drawn. -/
def LinkedText (active : Bool) (text : String) : Bool × String := (active, text)

/-- Lines 432-439: the rocket state table; `state & mask` converts to `bool`. -/
def stateTable (state : Nat) : List (Bool × String) :=
  [LinkedText (state &&& 0x80 != 0) "On Pad",
   LinkedText (state &&& 0x40 != 0) "Launched",
   LinkedText (state &&& 0x20 != 0) "Apogee",
   LinkedText (state &&& 0x10 != 0) "Ascending",
   LinkedText (state &&& 0x08 != 0) "Descending",
   LinkedText (state &&& 0x04 != 0) "Drogue Deployed",
   LinkedText (state &&& 0x02 != 0) "Main Deployed",
   LinkedText (state &&& 0x01 != 0) "Landed"]

/-- What one iteration of the main loop receives from outside. -/
structure FrameInput where
  /-- `Serial.connected_`. -/
  connected : Bool
  /-- `int currentTime = ImGui::GetTime()`. -/
  currentTime : Int
  /-- `ImGui::BeginTable("split", 2)`. -/
  tableShown : Bool
  /-- `ImGui::Button("Release Payload")`. -/
  releasePressed : Bool
  /-- `ImGui::Button("Cancel Release")`. -/
  cancelPressed : Bool
  /-- The check box "Enable Logging" was clicked. -/
  loggingClicked : Bool
deriving DecidableEq, Repr

/-- Lines 258-263: the completion poll; returns the new state and `incoming`. -/
def poll (m : Main) (incoming : List Char) : Main × List Char :=
  match m.dataThread with
  | Future.ready text =>
    ({ m with
        drained := m.drained + 1
        serialActions := m.serialActions ||| READ_SERIAL
        passedSerialParams := m.serialActions ||| READ_SERIAL
        dataThread := Future.running Task.serialCommTasks
        launched := m.launched + 1 }, text)
  | Future.running _ => (m, incoming)

/-- Lines 352-448 without the drawing: the part of the table block that writes state. -/
def tableBlock (m : Main) (i : FrameInput) : Main :=
  let m := { m with altitude := { m.altitude with Span := m.history } }
  let m := if i.releasePressed then { m with serialActions := m.serialActions ||| SEND_ENABLE } else m
  let m := if i.cancelPressed then { m with serialActions := m.serialActions ||| SEND_DISABLE } else m
  { m with logData := if i.loggingClicked then !m.logData else m.logData }

/-- Lines 250-454: the serial communication block of one iteration of the main loop. -/
def frame (m : Main) (i : FrameInput) : Main :=
  if i.connected then
    let incoming := "nothin".toList
    let (m, incoming) := poll m incoming
    match ingest m incoming i.currentTime with
    | .error (e, m) => { m with crashed := some e }
    | .ok m => if i.tableShown then tableBlock m i else m
  else m

/-- What happens next: the main loop runs one iteration, or the background task
finishes (its port operations done, the port having delivered `reply`). -/
inductive Event where
  | frame (i : FrameInput)
  | complete (reply : List Char)
deriving DecidableEq, Repr

/-- The background task of `dataThread` runs to completion. -/
def complete (m : Main) (reply : List Char) : Main :=
  match m.dataThread with
  | Future.running Task.GetSerialData =>
    let r := GetSerialData m.wire reply
    { m with wire := r.2, dataThread := Future.ready r.1, completed := m.completed + 1 }
  | Future.running Task.serialCommTasks =>
    let r := serialCommTasks m.passedSerialParams m.wire reply
    { m with wire := r.2, dataThread := Future.ready r.1, completed := m.completed + 1 }
  | Future.ready _ => m

/-- One step of the program; nothing happens any more once an exception has left `main`. -/
def step (m : Main) (ev : Event) : Main :=
  if m.crashed.isSome then m
  else
    match ev with
    | Event.frame i => frame m i
    | Event.complete reply => complete m reply

/-- The state after a sequence of events. -/
def run (m : Main) (evs : List Event) : Main := evs.foldl step m

/-- The frame of the spec's example. -/
def exampleFrame : List Char := "Data:1:2:3:4:5:6:7:8:9:10:11:12:0:99:".toList

/-! ## The ingest code as a function of its thirteen reads -/

/-- The numbers of the separators whose following text is read, in program order:
read `k` starts right after `delimiterPositions[k]`. -/
def reads : List Nat := [1, 2, 3, 4, 5, 6, 7, 8, 9, 10, 11, 12, 14]

/-- Read `k` of the ingest code: `stoi(lastData.substr(d[k] + 1, d[k+1] - 1))` for
`k = 1..12` (lines 301-315) and `stoi(lastData.substr(d[14] + 1, d[15]))` for `k = 14`
(line 317). -/
def readAt (s : List Char) (k : Nat) : Except Exn Int :=
  if k = 14 then substr s (delimiterPositions s 14 + 1) (delimiterPositions s 15) >>= stoi
  else substr s (delimiterPositions s k + 1) (delimiterPositions s (k + 1) - 1) >>= stoi

/-- The first read among `ks` that throws, with its exception; `rd k` is the result
of read `k`. -/
def firstThrowIn (rd : Nat → Except Exn Int) : List Nat → Option (Nat × Exn)
  | [] => none
  | k :: ks =>
    match rd k with
    | .error e => some (k, e)
    | .ok _ => firstThrowIn rd ks

/-- The value of read `k` (0 when it throws). -/
def valOf (rd : Nat → Except Exn Int) (k : Nat) : Int :=
  match rd k with
  | .ok v => v
  | .error _ => 0

/-- The value line 311 appends to the derived channel: `vecMag` of the `[0]` members
(the phases) of the points just appended to the three acceleration channels. -/
def phaseMag (m : Main) (t : Int) : Int :=
  vecMag (fmodf (toFloat t) m.xAccel.Span) (fmodf (toFloat t) m.yAccel.Span)
    (fmodf (toFloat t) m.zAccel.Span)

/-- The state when the ingest code has reached read `k` (`k = 15`: has finished line
317): the channels of the earlier reads hold their new point (`v j` is the value of
read `j`), the derived channel holds its new point once read 9 is done, the other
channels are untouched. -/
def upTo (m : Main) (s : List Char) (t : Int) (v : Nat → Int) (k : Nat) : Main :=
  { m with
    lastData := s
    xOrient := if 1 < k then m.xOrient.AddPoint (toFloat t) (toFloat (v 1)) else m.xOrient
    yOrient := if 2 < k then m.yOrient.AddPoint (toFloat t) (toFloat (v 2)) else m.yOrient
    zOrient := if 3 < k then m.zOrient.AddPoint (toFloat t) (toFloat (v 3)) else m.zOrient
    xAccel := if 4 < k then m.xAccel.AddPoint (toFloat t) (toFloat (v 4)) else m.xAccel
    yAccel := if 5 < k then m.yAccel.AddPoint (toFloat t) (toFloat (v 5)) else m.yAccel
    zAccel := if 6 < k then m.zAccel.AddPoint (toFloat t) (toFloat (v 6)) else m.zAccel
    xMag := if 7 < k then m.xMag.AddPoint (toFloat t) (toFloat (v 7)) else m.xMag
    yMag := if 8 < k then m.yMag.AddPoint (toFloat t) (toFloat (v 8)) else m.yMag
    zMag := if 9 < k then m.zMag.AddPoint (toFloat t) (toFloat (v 9)) else m.zMag
    AccelerationMagnitude :=
      if 9 < k then m.AccelerationMagnitude.AddPoint (toFloat t) (phaseMag m t)
      else m.AccelerationMagnitude
    force := if 10 < k then m.force.AddPoint (toFloat t) (toFloat (v 10)) else m.force
    temp := if 11 < k then m.temp.AddPoint (toFloat t) (toFloat (v 11)) else m.temp
    time := if 12 < k then m.time.AddPoint (toFloat t) (toFloat (v 12)) else m.time
    altitude := if 14 < k then m.altitude.AddPoint (toFloat t) (toFloat (v 14)) else m.altitude }

/-- Lines 319-328 applied to the state after line 317: with logging enabled, the `x`
members of the last points of the orientation and acceleration channels are streamed. -/
def logged (m : Main) (t : Int) (m' : Main) : Main :=
  if m.logData then
    { m' with dataFile := m.dataFile ++
        [fmodf (toFloat t) m.xOrient.Span, fmodf (toFloat t) m.yOrient.Span,
         fmodf (toFloat t) m.zOrient.Span, fmodf (toFloat t) m.xAccel.Span,
         fmodf (toFloat t) m.yAccel.Span, fmodf (toFloat t) m.zAccel.Span] }
  else m'

/-- The outcome of the ingest code on a text `s` with at least 13 separators, from the
results `rd` of its reads. -/
def outcomeOf (rd : Nat → Except Exn Int) (m : Main) (s : List Char) (t : Int) :
    Except (Exn × Main) Main :=
  match firstThrowIn rd reads with
  | some (k, e) => .error (e, upTo m s t (valOf rd) k)
  | none => .ok (logged m t (upTo m s t (valOf rd) 15))

/-- The call `AddPoint(t, v)` of the ingest code applied to the first channels of a
list, one stored value `v` each, at the `int` time `t` (converted to `float` as the
argument `x`); the channels beyond the values are left as they are. -/
def addFirst (t : Int) : List Int → List RollingBuffer → List RollingBuffer
  | v :: vs, b :: bs => b.AddPoint (toFloat t) v :: addFirst t vs bs
  | _, bs => bs

/-- The position in `Main.chans` of the channel that read `k` feeds (lines 301-317). -/
def chanIndex (k : Nat) : Nat := if k ≤ 9 then k - 1 else if k = 14 then 13 else k

/-- The values the ingest code appends, in program order: the `float` of reads 1..9,
the derived magnitude, the `float` of reads 10..12 and of read 14. -/
def allVals (m : Main) (t : Int) (v : Nat → Int) : List Int :=
  [toFloat (v 1), toFloat (v 2), toFloat (v 3), toFloat (v 4), toFloat (v 5),
   toFloat (v 6), toFloat (v 7), toFloat (v 8), toFloat (v 9), phaseMag m t,
   toFloat (v 10), toFloat (v 11), toFloat (v 12), toFloat (v 14)]

/-! ## Concrete frames and the states they lead to -/

/-- The state in which `ingest` of `exampleFrame` at time 0 throws: thirteen channels
hold a new point, `altitude` does not. -/
def exampleFrameState : Main :=
  { Main.init with
    lastData := exampleFrame
    xOrient := ⟨10, [⟨0, 0⟩, ⟨0, 2⟩]⟩
    yOrient := ⟨10, [⟨0, 0⟩, ⟨0, 3⟩]⟩
    zOrient := ⟨10, [⟨0, 0⟩, ⟨0, 4⟩]⟩
    xAccel := ⟨10, [⟨0, 0⟩, ⟨0, 5⟩]⟩
    yAccel := ⟨10, [⟨0, 0⟩, ⟨0, 6⟩]⟩
    zAccel := ⟨10, [⟨0, 0⟩, ⟨0, 7⟩]⟩
    xMag := ⟨10, [⟨0, 0⟩, ⟨0, 8⟩]⟩
    yMag := ⟨10, [⟨0, 0⟩, ⟨0, 9⟩]⟩
    zMag := ⟨10, [⟨0, 0⟩, ⟨0, 10⟩]⟩
    AccelerationMagnitude := ⟨10, [⟨0, 0⟩, ⟨0, 0⟩]⟩
    force := ⟨10, [⟨0, 0⟩, ⟨0, 11⟩]⟩
    temp := ⟨10, [⟨0, 0⟩, ⟨0, 12⟩]⟩
    time := ⟨10, [⟨0, 0⟩, ⟨0, 0⟩]⟩ }

/-- A frame with 15 separators whose third field is not a number. -/
def badFieldFrame : List Char := "Data:1:2:x:4:5:6:7:8:9:10:11:12:0:99:".toList

/-- The state in which `ingest` of `badFieldFrame` at time 3 throws. -/
def badFieldState : Main :=
  { Main.init with
    lastData := badFieldFrame
    xOrient := ⟨10, [⟨0, 0⟩, ⟨3, 2⟩]⟩ }

/-- A frame with 16 separators that the code accepts; the acceleration channels
receive 3, 4 and 0 from it. -/
def accelFrame : List Char := "Data:0:1:2:3:3:4:0:7:8:9:10:11:12:0:99:".toList

/-- The state after `ingest` of `accelFrame` at time 0. -/
def accelState : Main :=
  { Main.init with
    lastData := accelFrame
    xOrient := ⟨10, [⟨0, 0⟩, ⟨0, 1⟩]⟩
    yOrient := ⟨10, [⟨0, 0⟩, ⟨0, 2⟩]⟩
    zOrient := ⟨10, [⟨0, 0⟩, ⟨0, 3⟩]⟩
    xAccel := ⟨10, [⟨0, 0⟩, ⟨0, 3⟩]⟩
    yAccel := ⟨10, [⟨0, 0⟩, ⟨0, 4⟩]⟩
    zAccel := ⟨10, [⟨0, 0⟩, ⟨0, 0⟩]⟩
    xMag := ⟨10, [⟨0, 0⟩, ⟨0, 7⟩]⟩
    yMag := ⟨10, [⟨0, 0⟩, ⟨0, 8⟩]⟩
    zMag := ⟨10, [⟨0, 0⟩, ⟨0, 9⟩]⟩
    AccelerationMagnitude := ⟨10, [⟨0, 0⟩, ⟨0, 0⟩]⟩
    force := ⟨10, [⟨0, 0⟩, ⟨0, 10⟩]⟩
    temp := ⟨10, [⟨0, 0⟩, ⟨0, 11⟩]⟩
    time := ⟨10, [⟨0, 0⟩, ⟨0, 12⟩]⟩
    altitude := ⟨10, [⟨0, 0⟩, ⟨0, 99⟩]⟩ }

/-- A frame with 5 separators. -/
def shortFrame : List Char := "Data:1:2:3:4:".toList

/-! ## Notions used to state the claims on the main loop -/

/-- The variables the ingest code neither reads for writing nor writes: everything
except the channels, `lastData` and `dataFile`. -/
def Main.control (m : Main) :
    Bool × Int × Nat × Future × Nat × Nat × List Op × Nat × Nat × Nat × Option Exn :=
  (m.logData, m.history, m.state, m.dataThread, m.serialActions, m.passedSerialParams,
   m.wire, m.launched, m.completed, m.drained, m.crashed)

/-- Acquisition cycles that were launched and whose task has not finished. -/
def Main.inFlight (m : Main) : Nat := m.launched - m.completed

/-- Acquisition cycles whose task has finished and whose result was not yet taken by
`get()`. -/
def Main.awaitingDrain (m : Main) : Nat := m.completed - m.drained

/-- The bookkeeping of the acquisition cycles agrees with the future: no counter runs
ahead, and the cycle of `dataThread` is in flight exactly when the future is not ready. -/
def Main.acquisitionOk (m : Main) : Prop :=
  m.drained ≤ m.completed ∧ m.completed ≤ m.launched ∧ m.launched = m.drained + 1 ∧
    match m.dataThread with
    | Future.running _ => m.completed = m.drained
    | Future.ready _ => m.completed = m.launched

/-- A frame with the link connected, the table shown and nothing clicked. -/
def idleFrame : FrameInput :=
  { connected := true, currentTime := 0, tableShown := true, releasePressed := false,
    cancelPressed := false, loggingClicked := false }

/-- A frame in which "Release Payload" is pressed once. -/
def pressFrame : FrameInput := { idleFrame with releasePressed := true }

/-- One press of "Release Payload" followed by three acquisition cycles: each
`complete` is the end of the running task (the port delivers nothing), each frame
that follows drains it and launches the next cycle. -/
def pressOnce : List Event :=
  [Event.complete [], Event.frame pressFrame,
   Event.complete [], Event.frame idleFrame,
   Event.complete [], Event.frame idleFrame,
   Event.complete [], Event.frame idleFrame]

/-- The result of the ingest step of a frame, as a state: the state reached, marked
as crashed when an exception escaped. -/
def settle (r : Except (Exn × Main) Main) (i : FrameInput) : Main :=
  match r with
  | .error (e, m) => { m with crashed := some e }
  | .ok m => if i.tableShown then tableBlock m i else m

/-! ## Notions used to state the claims on spans, the log, the state table and the scan -/

/-- The `Span` members of the fourteen channels, in the order of `Main.chans`
(`altitude` last). -/
def Main.spans (m : Main) : List Int := m.chans.map fun b => b.Span

/-- The flags of the state table, top row (`On Pad`, mask 0x80) first. -/
def stateFlags (state : Nat) : List Bool := (stateTable state).map Prod.fst

/-- The state byte whose bits, high to low, are the given eight flags. -/
def stateOfFlags (b7 b6 b5 b4 b3 b2 b1 b0 : Bool) : Nat :=
  b7.toNat * 128 + b6.toNat * 64 + b5.toNat * 32 + b4.toNat * 16 + b3.toNat * 8
    + b2.toNat * 4 + b1.toNat * 2 + b0.toNat

/-- The state at loop entry with logging enabled. -/
def loggingInit : Main := { Main.init with logData := true }

/-- A text made of segments, each followed by a separator, and a remainder:
`joinSegs [a, b] r` is `a:b:r`. -/
def joinSegs : List (List Char) → List Char → List Char
  | [], rest => rest
  | f :: fs, rest => f ++ ':' :: joinSegs fs rest

/-- A non-empty run of decimal digits. -/
def digitsOnly (ds : List Char) : Bool := !ds.isEmpty && ds.all isdigit

/-- A decimal integer as the sender prints it: digits, with a leading `-` when
negative. -/
def isDecimal (f : List Char) : Bool :=
  if f.head? = some '-' then digitsOnly f.tail else digitsOnly f

/-- The integer a decimal text denotes. -/
def decimalVal (f : List Char) : Int :=
  if f.head? = some '-' then -(digitsVal f.tail : Int) else (digitsVal f : Int)

/-- The value is in the range of a 32-bit `int`. -/
def fitsInt (v : Int) : Bool := decide (-2147483648 ≤ v) && decide (v ≤ 2147483647)

/-- The text handed to `stoi` by read `k`: the `substr` of lines 301-317. -/
def readText (s : List Char) (k : Nat) : Except Exn (List Char) :=
  if k = 14 then substr s (delimiterPositions s 14 + 1) (delimiterPositions s 15)
  else substr s (delimiterPositions s k + 1) (delimiterPositions s (k + 1) - 1)

/-- A frame with 16 separators whose fields are all decimal integers; the one between
the 15th and 16th separators does not fit a 32-bit `int`. -/
def bigAltitudeFrame : List Char :=
  "Data:0:1:2:3:4:5:6:7:8:9:10:11:12:0:99999999999:".toList

/-- The segments of `bigAltitudeFrame`. -/
def bigAltitudeSegs : List (List Char) :=
  ["Data", "0", "1", "2", "3", "4", "5", "6", "7", "8", "9", "10", "11", "12", "0",
   "99999999999"].map String.toList

/-- The state in which `ingest` of `bigAltitudeFrame` at time 0 throws. -/
def bigAltitudeState : Main :=
  { Main.init with
    lastData := bigAltitudeFrame
    xOrient := ⟨10, [⟨0, 0⟩, ⟨0, 1⟩]⟩
    yOrient := ⟨10, [⟨0, 0⟩, ⟨0, 2⟩]⟩
    zOrient := ⟨10, [⟨0, 0⟩, ⟨0, 3⟩]⟩
    xAccel := ⟨10, [⟨0, 0⟩, ⟨0, 4⟩]⟩
    yAccel := ⟨10, [⟨0, 0⟩, ⟨0, 5⟩]⟩
    zAccel := ⟨10, [⟨0, 0⟩, ⟨0, 6⟩]⟩
    xMag := ⟨10, [⟨0, 0⟩, ⟨0, 7⟩]⟩
    yMag := ⟨10, [⟨0, 0⟩, ⟨0, 8⟩]⟩
    zMag := ⟨10, [⟨0, 0⟩, ⟨0, 9⟩]⟩
    AccelerationMagnitude := ⟨10, [⟨0, 0⟩, ⟨0, 0⟩]⟩
    force := ⟨10, [⟨0, 0⟩, ⟨0, 10⟩]⟩
    temp := ⟨10, [⟨0, 0⟩, ⟨0, 11⟩]⟩
    time := ⟨10, [⟨0, 0⟩, ⟨0, 12⟩]⟩ }

/-- A frame with exactly 14 separators whose leading tag `7x` is not an integer. -/
def tagFrame : List Char := "7x:0:1:2:3:4:5:6:7:8:9:10:11:12:".toList

/-- The state after `ingest` of `tagFrame` at time 0. -/
def tagState : Main :=
  { Main.init with
    lastData := tagFrame
    xOrient := ⟨10, [⟨0, 0⟩, ⟨0, 1⟩]⟩
    yOrient := ⟨10, [⟨0, 0⟩, ⟨0, 2⟩]⟩
    zOrient := ⟨10, [⟨0, 0⟩, ⟨0, 3⟩]⟩
    xAccel := ⟨10, [⟨0, 0⟩, ⟨0, 4⟩]⟩
    yAccel := ⟨10, [⟨0, 0⟩, ⟨0, 5⟩]⟩
    zAccel := ⟨10, [⟨0, 0⟩, ⟨0, 6⟩]⟩
    xMag := ⟨10, [⟨0, 0⟩, ⟨0, 7⟩]⟩
    yMag := ⟨10, [⟨0, 0⟩, ⟨0, 8⟩]⟩
    zMag := ⟨10, [⟨0, 0⟩, ⟨0, 9⟩]⟩
    AccelerationMagnitude := ⟨10, [⟨0, 0⟩, ⟨0, 0⟩]⟩
    force := ⟨10, [⟨0, 0⟩, ⟨0, 10⟩]⟩
    temp := ⟨10, [⟨0, 0⟩, ⟨0, 11⟩]⟩
    time := ⟨10, [⟨0, 0⟩, ⟨0, 12⟩]⟩
    altitude := ⟨10, [⟨0, 0⟩, ⟨0, 7⟩]⟩ }

/-- The segments of the frame the sender documents, with the values 1 to 13. -/
def senderSegs : List (List Char) :=
  ["Data", "1", "2", "3", "4", "5", "6", "7", "8", "9", "10", "11", "12", "13"].map
    String.toList

/-- The segments of a frame with 16 separators, the values 0 to 14 after the tag. -/
def fullSegs : List (List Char) :=
  ["Data", "0", "1", "2", "3", "4", "5", "6", "7", "8", "9", "10", "11", "12", "13",
   "14"].map String.toList

/-- The numbers of the segments that the twelve reads before the altitude read parse. -/
def readSegs : List Nat := [2, 3, 4, 5, 6, 7, 8, 9, 10, 11, 12, 13]

/-- The spans the program can reach: `history` is 20, the thirteen channels other than
`altitude` have the span 10 of their constructor, and `altitude` has 10 (before the
first table block) or 20. -/
def Main.spansOk (m : Main) : Prop :=
  m.history = 20 ∧
    (m.spans = [10, 10, 10, 10, 10, 10, 10, 10, 10, 10, 10, 10, 10, 10]
      ∨ m.spans = [10, 10, 10, 10, 10, 10, 10, 10, 10, 10, 10, 10, 10, 20])

/-- A frame with 16 separators whose altitude field 16777217 (`2^24 + 1`) fits an `int`
but is not a binary32 value. -/
def roundedAltitudeFrame : List Char :=
  "Data:0:1:2:3:4:5:6:7:8:9:10:11:12:0:16777217:".toList

/-- The state after `ingest` of `roundedAltitudeFrame` at time 0. -/
def roundedAltitudeState : Main :=
  { bigAltitudeState with
    lastData := roundedAltitudeFrame
    altitude := ⟨10, [⟨0, 0⟩, ⟨0, 16777216⟩]⟩ }

theorem eq_nil_or_snoc {α : Type} (l : List α) : l = [] ∨ ∃ init a, l = init ++ [a] := by
  rcases List.eq_nil_or_concat l with h | ⟨init, a, h⟩
  · exact Or.inl h
  · exact Or.inr ⟨init, a, by rw [h, List.concat_eq_append]⟩

theorem snoc_of_getLast? {α : Type} (l : List α) (a : α) (h : l.getLast? = some a) :
    ∃ init, l = init ++ [a] := by
  rcases eq_nil_or_snoc l with hnil | ⟨init, a2, h2⟩
  · simp [hnil] at h
  · refine ⟨init, ?_⟩
    rw [h2] at h
    simp at h
    rw [h2, h]

theorem back_concat (l : List ImVec2) (a : ImVec2) : back (l ++ [a]) = a := by
  simp [back]

theorem AddPoint_Span (b : RollingBuffer) (x y : Int) : (b.AddPoint x y).Span = b.Span := rfl

theorem AddPoint_Data_ne_nil (b : RollingBuffer) (x y : Int) : (b.AddPoint x y).Data ≠ [] := by
  simp [RollingBuffer.AddPoint]

theorem back_AddPoint (b : RollingBuffer) (x y : Int) :
    back (b.AddPoint x y).Data = ⟨fmodf x b.Span, y⟩ := by
  simp [RollingBuffer.AddPoint, back]

theorem AddPoint_nonDecreasing (b : RollingBuffer) (x y : Int) (h : nonDecreasing b.Data) :
    nonDecreasing (b.AddPoint x y).Data := by
  unfold nonDecreasing at *
  rcases eq_nil_or_snoc b.Data with hnil | ⟨init, l, hl⟩
  · simp [RollingBuffer.AddPoint, hnil]
  · by_cases hlt : fmodf x b.Span < l.x
    · simp [RollingBuffer.AddPoint, hl, back, hlt]
    · have hle : l.x ≤ fmodf x b.Span := not_lt.mp hlt
      rw [hl] at h
      have hinit := (List.pairwise_append.mp h).2.2
      simp only [RollingBuffer.AddPoint, hl, back_concat, hlt, decide_False, Bool.and_false,
        Bool.false_eq_true, if_false]
      refine List.pairwise_append.mpr ⟨h, List.pairwise_singleton _ _, ?_⟩
      intro a ha c hc
      rw [List.mem_singleton] at hc
      subst hc
      rcases List.mem_append.mp ha with ha | ha
      · exact le_trans (hinit a ha l (List.mem_singleton.mpr rfl)) hle
      · rw [List.mem_singleton] at ha
        subst ha
        exact hle

theorem calls_nonDecreasing (cs : List Call) :
    ∀ b : RollingBuffer, nonDecreasing b.Data → nonDecreasing (b.calls cs).Data := by
  induction cs with
  | nil => intro b h; exact h
  | cons c cs ih =>
    intro b h
    exact ih _ (AddPoint_nonDecreasing { b with Span := c.span } c.x c.y h)

theorem calls_Data_ne_nil (cs : List Call) :
    ∀ b : RollingBuffer, (b.Data ≠ [] ∨ cs ≠ []) → (b.calls cs).Data ≠ [] := by
  induction cs with
  | nil => intro b h; simpa [RollingBuffer.calls] using h
  | cons c cs ih =>
    intro b _
    exact ih _ (Or.inl (AddPoint_Data_ne_nil _ _ _))

/-! ## Claims on `RollingBuffer` -/

/-- C5: `AddPoint(x, y)` on a buffer with span `S > 0` stores the phase `p = fmodf(x, S)`
(which is `x mod S` for a time `x >= 0`): when the buffer is non-empty and `p` is less
than the phase of its last point, the buffer afterwards holds exactly the point
`(p, y)`; otherwise it holds the old points, unchanged, followed by `(p, y)`. With
`S = 10`, appending at times 1, 5, 9, 3 leaves only the point for time 3. -/
theorem AddPoint_wrap (b : RollingBuffer) (x y : Int) (hS : 0 < b.Span) :
    (∀ l, b.Data.getLast? = some l → fmodf x b.Span < l.x →
        (b.AddPoint x y).Data = [⟨fmodf x b.Span, y⟩])
    ∧ ((b.Data = [] ∨ ∃ l, b.Data.getLast? = some l ∧ l.x ≤ fmodf x b.Span) →
        (b.AddPoint x y).Data = b.Data ++ [⟨fmodf x b.Span, y⟩])
    ∧ (0 ≤ x → fmodf x b.Span = x % b.Span ∧ 0 ≤ x % b.Span ∧ x % b.Span < b.Span)
    ∧ (∀ y1 y5 y9 y3 : Int,
        ((((RollingBuffer.new.AddPoint 1 y1).AddPoint 5 y5).AddPoint 9 y9).AddPoint 3 y3).Data
          = [⟨3, y3⟩]) := by
  refine ⟨?_, ?_, ?_, ?_⟩
  · intro l hl hlt
    obtain ⟨init, hinit⟩ := snoc_of_getLast? b.Data l hl
    simp [RollingBuffer.AddPoint, hinit, back, hlt]
  · rintro (hnil | ⟨l, hl, hle⟩)
    · simp [RollingBuffer.AddPoint, hnil]
    · obtain ⟨init, hinit⟩ := snoc_of_getLast? b.Data l hl
      simp [RollingBuffer.AddPoint, hinit, back, not_lt.mpr hle]
  · intro hx
    refine ⟨?_, Int.emod_nonneg _ (ne_of_gt hS), Int.emod_lt_of_pos _ hS⟩
    unfold fmodf
    exact Int.tmod_eq_emod hx (le_of_lt hS)
  · intro y1 y5 y9 y3
    have h1 : Int.tmod 1 10 = 1 := by decide
    have h5 : Int.tmod 5 10 = 5 := by decide
    have h9 : Int.tmod 9 10 = 9 := by decide
    have h3 : Int.tmod 3 10 = 3 := by decide
    simp [RollingBuffer.AddPoint, RollingBuffer.new, back, fmodf, h1, h5, h9, h3]

/-- Witness for C5: the seeded buffer (span 10), a point at time 13. -/
theorem AddPoint_wrap_witness :
    (0 : Int) < RollingBuffer.seeded.Span ∧
    (RollingBuffer.seeded.AddPoint 13 7).Data = [⟨0, 0⟩, ⟨3, 7⟩] :=
  ⟨by decide,
   ((AddPoint_wrap RollingBuffer.seeded 13 7 (by decide)).2.1
      (Or.inr ⟨⟨0, 0⟩, by decide, by decide⟩))⟩

/-- C6: starting from the empty buffer or from the seeded buffer (the single point at
phase 0), after any sequence of `AddPoint` calls with any time stamps and any positive
spans (the span may change between calls) the stored points are non-decreasing in
phase, and the buffer is non-empty (from the empty buffer: as soon as one call was
made). -/
theorem calls_invariant (cs : List Call) (hpos : ∀ c ∈ cs, 0 < c.span) :
    (nonDecreasing (RollingBuffer.new.calls cs).Data
      ∧ (cs ≠ [] → (RollingBuffer.new.calls cs).Data ≠ []))
    ∧ (nonDecreasing (RollingBuffer.seeded.calls cs).Data
      ∧ (RollingBuffer.seeded.calls cs).Data ≠ []) := by
  have _ := hpos
  refine ⟨⟨calls_nonDecreasing cs _ ?_, fun h => calls_Data_ne_nil cs _ (Or.inr h)⟩,
    ⟨calls_nonDecreasing cs _ ?_, calls_Data_ne_nil cs _ (Or.inl ?_)⟩⟩
  · exact List.Pairwise.nil
  · exact AddPoint_nonDecreasing _ 0 0 List.Pairwise.nil
  · exact AddPoint_Data_ne_nil _ 0 0

/-- Witness for C6: times 1, 5, 9, 3 with the span changing from 10 to 20 and back. -/
theorem calls_invariant_witness :
    (∀ c ∈ [Call.mk 10 1 0, Call.mk 20 5 0, Call.mk 10 9 0, Call.mk 10 3 0], 0 < c.span)
    ∧ nonDecreasing
        (RollingBuffer.seeded.calls [⟨10, 1, 0⟩, ⟨20, 5, 0⟩, ⟨10, 9, 0⟩, ⟨10, 3, 0⟩]).Data :=
  ⟨by decide,
   (calls_invariant [⟨10, 1, 0⟩, ⟨20, 5, 0⟩, ⟨10, 9, 0⟩, ⟨10, 3, 0⟩] (by decide)).2.1⟩


/-! ## Lemmas on the conversion to `float` -/

theorem roundNat_exact (a : Nat) (h : a < 16777216) : roundNat a = a := by
  have he : excessBits 128 a = 0 := by
    show excessBits (127 + 1) a = 0
    unfold excessBits
    rw [if_pos h]
  unfold roundNat
  simp only [he, pow_zero, Nat.div_one, Nat.mod_one, Nat.mul_zero, Nat.mul_one]
  rw [if_neg (by omega)]

/-- An `int` of absolute value below `2^24` converts to `float` exactly. -/
theorem toFloat_exact (n : Int) (h : n.natAbs < 16777216) : toFloat n = n := by
  unfold toFloat
  rw [roundNat_exact n.natAbs h]
  by_cases hn : n < 0
  · rw [if_pos hn]
    omega
  · rw [if_neg hn]
    omega

/-! ## Lemmas on `ingest` -/

theorem length_ge_of_count (s : List Char) (h : s.count ':' ≥ 13) : s.length ≥ 10 := by
  have := List.count_le_length ':' s
  omega

set_option maxRecDepth 1000000 in
theorem ingest_throw_1 (m : Main) (s : List Char) (t : Int) (h13 : s.count ':' ≥ 13)
    (e : Exn)
    (h1 : readAt s 1 = .error e) :
    ingest m s t = .error (e, { m with
      lastData := s }) := by
  have hlen := length_ge_of_count s h13
  have r1 : (substr s (delimiterPositions s 1 + 1) (delimiterPositions s 2 - 1) >>= stoi) = .error e := h1
  simp only [ingest, h13, hlen, if_true, stoiSubstr, back_AddPoint, ImVec2.idx, logged,
    r1]
  rfl

set_option maxRecDepth 1000000 in
theorem ingest_throw_2 (m : Main) (s : List Char) (t : Int) (h13 : s.count ':' ≥ 13)
    (v1 : Int)
    (e : Exn)
    (h1 : readAt s 1 = .ok v1)
    (h2 : readAt s 2 = .error e) :
    ingest m s t = .error (e, { m with
      lastData := s,
      xOrient := m.xOrient.AddPoint (toFloat t) (toFloat v1) }) := by
  have hlen := length_ge_of_count s h13
  have r1 : (substr s (delimiterPositions s 1 + 1) (delimiterPositions s 2 - 1) >>= stoi) = .ok v1 := h1
  have r2 : (substr s (delimiterPositions s 2 + 1) (delimiterPositions s 3 - 1) >>= stoi) = .error e := h2
  simp only [ingest, h13, hlen, if_true, stoiSubstr, back_AddPoint, ImVec2.idx, logged,
    r1, r2]
  rfl

set_option maxRecDepth 1000000 in
theorem ingest_throw_3 (m : Main) (s : List Char) (t : Int) (h13 : s.count ':' ≥ 13)
    (v1 v2 : Int)
    (e : Exn)
    (h1 : readAt s 1 = .ok v1)
    (h2 : readAt s 2 = .ok v2)
    (h3 : readAt s 3 = .error e) :
    ingest m s t = .error (e, { m with
      lastData := s,
      xOrient := m.xOrient.AddPoint (toFloat t) (toFloat v1),
      yOrient := m.yOrient.AddPoint (toFloat t) (toFloat v2) }) := by
  have hlen := length_ge_of_count s h13
  have r1 : (substr s (delimiterPositions s 1 + 1) (delimiterPositions s 2 - 1) >>= stoi) = .ok v1 := h1
  have r2 : (substr s (delimiterPositions s 2 + 1) (delimiterPositions s 3 - 1) >>= stoi) = .ok v2 := h2
  have r3 : (substr s (delimiterPositions s 3 + 1) (delimiterPositions s 4 - 1) >>= stoi) = .error e := h3
  simp only [ingest, h13, hlen, if_true, stoiSubstr, back_AddPoint, ImVec2.idx, logged,
    r1, r2, r3]
  rfl

set_option maxRecDepth 1000000 in
theorem ingest_throw_4 (m : Main) (s : List Char) (t : Int) (h13 : s.count ':' ≥ 13)
    (v1 v2 v3 : Int)
    (e : Exn)
    (h1 : readAt s 1 = .ok v1)
    (h2 : readAt s 2 = .ok v2)
    (h3 : readAt s 3 = .ok v3)
    (h4 : readAt s 4 = .error e) :
    ingest m s t = .error (e, { m with
      lastData := s,
      xOrient := m.xOrient.AddPoint (toFloat t) (toFloat v1),
      yOrient := m.yOrient.AddPoint (toFloat t) (toFloat v2),
      zOrient := m.zOrient.AddPoint (toFloat t) (toFloat v3) }) := by
  have hlen := length_ge_of_count s h13
  have r1 : (substr s (delimiterPositions s 1 + 1) (delimiterPositions s 2 - 1) >>= stoi) = .ok v1 := h1
  have r2 : (substr s (delimiterPositions s 2 + 1) (delimiterPositions s 3 - 1) >>= stoi) = .ok v2 := h2
  have r3 : (substr s (delimiterPositions s 3 + 1) (delimiterPositions s 4 - 1) >>= stoi) = .ok v3 := h3
  have r4 : (substr s (delimiterPositions s 4 + 1) (delimiterPositions s 5 - 1) >>= stoi) = .error e := h4
  simp only [ingest, h13, hlen, if_true, stoiSubstr, back_AddPoint, ImVec2.idx, logged,
    r1, r2, r3, r4]
  rfl

set_option maxRecDepth 1000000 in
theorem ingest_throw_5 (m : Main) (s : List Char) (t : Int) (h13 : s.count ':' ≥ 13)
    (v1 v2 v3 v4 : Int)
    (e : Exn)
    (h1 : readAt s 1 = .ok v1)
    (h2 : readAt s 2 = .ok v2)
    (h3 : readAt s 3 = .ok v3)
    (h4 : readAt s 4 = .ok v4)
    (h5 : readAt s 5 = .error e) :
    ingest m s t = .error (e, { m with
      lastData := s,
      xOrient := m.xOrient.AddPoint (toFloat t) (toFloat v1),
      yOrient := m.yOrient.AddPoint (toFloat t) (toFloat v2),
      zOrient := m.zOrient.AddPoint (toFloat t) (toFloat v3),
      xAccel := m.xAccel.AddPoint (toFloat t) (toFloat v4) }) := by
  have hlen := length_ge_of_count s h13
  have r1 : (substr s (delimiterPositions s 1 + 1) (delimiterPositions s 2 - 1) >>= stoi) = .ok v1 := h1
  have r2 : (substr s (delimiterPositions s 2 + 1) (delimiterPositions s 3 - 1) >>= stoi) = .ok v2 := h2
  have r3 : (substr s (delimiterPositions s 3 + 1) (delimiterPositions s 4 - 1) >>= stoi) = .ok v3 := h3
  have r4 : (substr s (delimiterPositions s 4 + 1) (delimiterPositions s 5 - 1) >>= stoi) = .ok v4 := h4
  have r5 : (substr s (delimiterPositions s 5 + 1) (delimiterPositions s 6 - 1) >>= stoi) = .error e := h5
  simp only [ingest, h13, hlen, if_true, stoiSubstr, back_AddPoint, ImVec2.idx, logged,
    r1, r2, r3, r4, r5]
  rfl

set_option maxRecDepth 1000000 in
theorem ingest_throw_6 (m : Main) (s : List Char) (t : Int) (h13 : s.count ':' ≥ 13)
    (v1 v2 v3 v4 v5 : Int)
    (e : Exn)
    (h1 : readAt s 1 = .ok v1)
    (h2 : readAt s 2 = .ok v2)
    (h3 : readAt s 3 = .ok v3)
    (h4 : readAt s 4 = .ok v4)
    (h5 : readAt s 5 = .ok v5)
    (h6 : readAt s 6 = .error e) :
    ingest m s t = .error (e, { m with
      lastData := s,
      xOrient := m.xOrient.AddPoint (toFloat t) (toFloat v1),
      yOrient := m.yOrient.AddPoint (toFloat t) (toFloat v2),
      zOrient := m.zOrient.AddPoint (toFloat t) (toFloat v3),
      xAccel := m.xAccel.AddPoint (toFloat t) (toFloat v4),
      yAccel := m.yAccel.AddPoint (toFloat t) (toFloat v5) }) := by
  have hlen := length_ge_of_count s h13
  have r1 : (substr s (delimiterPositions s 1 + 1) (delimiterPositions s 2 - 1) >>= stoi) = .ok v1 := h1
  have r2 : (substr s (delimiterPositions s 2 + 1) (delimiterPositions s 3 - 1) >>= stoi) = .ok v2 := h2
  have r3 : (substr s (delimiterPositions s 3 + 1) (delimiterPositions s 4 - 1) >>= stoi) = .ok v3 := h3
  have r4 : (substr s (delimiterPositions s 4 + 1) (delimiterPositions s 5 - 1) >>= stoi) = .ok v4 := h4
  have r5 : (substr s (delimiterPositions s 5 + 1) (delimiterPositions s 6 - 1) >>= stoi) = .ok v5 := h5
  have r6 : (substr s (delimiterPositions s 6 + 1) (delimiterPositions s 7 - 1) >>= stoi) = .error e := h6
  simp only [ingest, h13, hlen, if_true, stoiSubstr, back_AddPoint, ImVec2.idx, logged,
    r1, r2, r3, r4, r5, r6]
  rfl

set_option maxRecDepth 1000000 in
theorem ingest_throw_7 (m : Main) (s : List Char) (t : Int) (h13 : s.count ':' ≥ 13)
    (v1 v2 v3 v4 v5 v6 : Int)
    (e : Exn)
    (h1 : readAt s 1 = .ok v1)
    (h2 : readAt s 2 = .ok v2)
    (h3 : readAt s 3 = .ok v3)
    (h4 : readAt s 4 = .ok v4)
    (h5 : readAt s 5 = .ok v5)
    (h6 : readAt s 6 = .ok v6)
    (h7 : readAt s 7 = .error e) :
    ingest m s t = .error (e, { m with
      lastData := s,
      xOrient := m.xOrient.AddPoint (toFloat t) (toFloat v1),
      yOrient := m.yOrient.AddPoint (toFloat t) (toFloat v2),
      zOrient := m.zOrient.AddPoint (toFloat t) (toFloat v3),
      xAccel := m.xAccel.AddPoint (toFloat t) (toFloat v4),
      yAccel := m.yAccel.AddPoint (toFloat t) (toFloat v5),
      zAccel := m.zAccel.AddPoint (toFloat t) (toFloat v6) }) := by
  have hlen := length_ge_of_count s h13
  have r1 : (substr s (delimiterPositions s 1 + 1) (delimiterPositions s 2 - 1) >>= stoi) = .ok v1 := h1
  have r2 : (substr s (delimiterPositions s 2 + 1) (delimiterPositions s 3 - 1) >>= stoi) = .ok v2 := h2
  have r3 : (substr s (delimiterPositions s 3 + 1) (delimiterPositions s 4 - 1) >>= stoi) = .ok v3 := h3
  have r4 : (substr s (delimiterPositions s 4 + 1) (delimiterPositions s 5 - 1) >>= stoi) = .ok v4 := h4
  have r5 : (substr s (delimiterPositions s 5 + 1) (delimiterPositions s 6 - 1) >>= stoi) = .ok v5 := h5
  have r6 : (substr s (delimiterPositions s 6 + 1) (delimiterPositions s 7 - 1) >>= stoi) = .ok v6 := h6
  have r7 : (substr s (delimiterPositions s 7 + 1) (delimiterPositions s 8 - 1) >>= stoi) = .error e := h7
  simp only [ingest, h13, hlen, if_true, stoiSubstr, back_AddPoint, ImVec2.idx, logged,
    r1, r2, r3, r4, r5, r6, r7]
  rfl

set_option maxRecDepth 1000000 in
theorem ingest_throw_8 (m : Main) (s : List Char) (t : Int) (h13 : s.count ':' ≥ 13)
    (v1 v2 v3 v4 v5 v6 v7 : Int)
    (e : Exn)
    (h1 : readAt s 1 = .ok v1)
    (h2 : readAt s 2 = .ok v2)
    (h3 : readAt s 3 = .ok v3)
    (h4 : readAt s 4 = .ok v4)
    (h5 : readAt s 5 = .ok v5)
    (h6 : readAt s 6 = .ok v6)
    (h7 : readAt s 7 = .ok v7)
    (h8 : readAt s 8 = .error e) :
    ingest m s t = .error (e, { m with
      lastData := s,
      xOrient := m.xOrient.AddPoint (toFloat t) (toFloat v1),
      yOrient := m.yOrient.AddPoint (toFloat t) (toFloat v2),
      zOrient := m.zOrient.AddPoint (toFloat t) (toFloat v3),
      xAccel := m.xAccel.AddPoint (toFloat t) (toFloat v4),
      yAccel := m.yAccel.AddPoint (toFloat t) (toFloat v5),
      zAccel := m.zAccel.AddPoint (toFloat t) (toFloat v6),
      xMag := m.xMag.AddPoint (toFloat t) (toFloat v7) }) := by
  have hlen := length_ge_of_count s h13
  have r1 : (substr s (delimiterPositions s 1 + 1) (delimiterPositions s 2 - 1) >>= stoi) = .ok v1 := h1
  have r2 : (substr s (delimiterPositions s 2 + 1) (delimiterPositions s 3 - 1) >>= stoi) = .ok v2 := h2
  have r3 : (substr s (delimiterPositions s 3 + 1) (delimiterPositions s 4 - 1) >>= stoi) = .ok v3 := h3
  have r4 : (substr s (delimiterPositions s 4 + 1) (delimiterPositions s 5 - 1) >>= stoi) = .ok v4 := h4
  have r5 : (substr s (delimiterPositions s 5 + 1) (delimiterPositions s 6 - 1) >>= stoi) = .ok v5 := h5
  have r6 : (substr s (delimiterPositions s 6 + 1) (delimiterPositions s 7 - 1) >>= stoi) = .ok v6 := h6
  have r7 : (substr s (delimiterPositions s 7 + 1) (delimiterPositions s 8 - 1) >>= stoi) = .ok v7 := h7
  have r8 : (substr s (delimiterPositions s 8 + 1) (delimiterPositions s 9 - 1) >>= stoi) = .error e := h8
  simp only [ingest, h13, hlen, if_true, stoiSubstr, back_AddPoint, ImVec2.idx, logged,
    r1, r2, r3, r4, r5, r6, r7, r8]
  rfl

set_option maxRecDepth 1000000 in
theorem ingest_throw_9 (m : Main) (s : List Char) (t : Int) (h13 : s.count ':' ≥ 13)
    (v1 v2 v3 v4 v5 v6 v7 v8 : Int)
    (e : Exn)
    (h1 : readAt s 1 = .ok v1)
    (h2 : readAt s 2 = .ok v2)
    (h3 : readAt s 3 = .ok v3)
    (h4 : readAt s 4 = .ok v4)
    (h5 : readAt s 5 = .ok v5)
    (h6 : readAt s 6 = .ok v6)
    (h7 : readAt s 7 = .ok v7)
    (h8 : readAt s 8 = .ok v8)
    (h9 : readAt s 9 = .error e) :
    ingest m s t = .error (e, { m with
      lastData := s,
      xOrient := m.xOrient.AddPoint (toFloat t) (toFloat v1),
      yOrient := m.yOrient.AddPoint (toFloat t) (toFloat v2),
      zOrient := m.zOrient.AddPoint (toFloat t) (toFloat v3),
      xAccel := m.xAccel.AddPoint (toFloat t) (toFloat v4),
      yAccel := m.yAccel.AddPoint (toFloat t) (toFloat v5),
      zAccel := m.zAccel.AddPoint (toFloat t) (toFloat v6),
      xMag := m.xMag.AddPoint (toFloat t) (toFloat v7),
      yMag := m.yMag.AddPoint (toFloat t) (toFloat v8) }) := by
  have hlen := length_ge_of_count s h13
  have r1 : (substr s (delimiterPositions s 1 + 1) (delimiterPositions s 2 - 1) >>= stoi) = .ok v1 := h1
  have r2 : (substr s (delimiterPositions s 2 + 1) (delimiterPositions s 3 - 1) >>= stoi) = .ok v2 := h2
  have r3 : (substr s (delimiterPositions s 3 + 1) (delimiterPositions s 4 - 1) >>= stoi) = .ok v3 := h3
  have r4 : (substr s (delimiterPositions s 4 + 1) (delimiterPositions s 5 - 1) >>= stoi) = .ok v4 := h4
  have r5 : (substr s (delimiterPositions s 5 + 1) (delimiterPositions s 6 - 1) >>= stoi) = .ok v5 := h5
  have r6 : (substr s (delimiterPositions s 6 + 1) (delimiterPositions s 7 - 1) >>= stoi) = .ok v6 := h6
  have r7 : (substr s (delimiterPositions s 7 + 1) (delimiterPositions s 8 - 1) >>= stoi) = .ok v7 := h7
  have r8 : (substr s (delimiterPositions s 8 + 1) (delimiterPositions s 9 - 1) >>= stoi) = .ok v8 := h8
  have r9 : (substr s (delimiterPositions s 9 + 1) (delimiterPositions s 10 - 1) >>= stoi) = .error e := h9
  simp only [ingest, h13, hlen, if_true, stoiSubstr, back_AddPoint, ImVec2.idx, logged,
    r1, r2, r3, r4, r5, r6, r7, r8, r9]
  rfl

set_option maxRecDepth 1000000 in
theorem ingest_throw_10 (m : Main) (s : List Char) (t : Int) (h13 : s.count ':' ≥ 13)
    (v1 v2 v3 v4 v5 v6 v7 v8 v9 : Int)
    (e : Exn)
    (h1 : readAt s 1 = .ok v1)
    (h2 : readAt s 2 = .ok v2)
    (h3 : readAt s 3 = .ok v3)
    (h4 : readAt s 4 = .ok v4)
    (h5 : readAt s 5 = .ok v5)
    (h6 : readAt s 6 = .ok v6)
    (h7 : readAt s 7 = .ok v7)
    (h8 : readAt s 8 = .ok v8)
    (h9 : readAt s 9 = .ok v9)
    (h10 : readAt s 10 = .error e) :
    ingest m s t = .error (e, { m with
      lastData := s,
      xOrient := m.xOrient.AddPoint (toFloat t) (toFloat v1),
      yOrient := m.yOrient.AddPoint (toFloat t) (toFloat v2),
      zOrient := m.zOrient.AddPoint (toFloat t) (toFloat v3),
      xAccel := m.xAccel.AddPoint (toFloat t) (toFloat v4),
      yAccel := m.yAccel.AddPoint (toFloat t) (toFloat v5),
      zAccel := m.zAccel.AddPoint (toFloat t) (toFloat v6),
      xMag := m.xMag.AddPoint (toFloat t) (toFloat v7),
      yMag := m.yMag.AddPoint (toFloat t) (toFloat v8),
      zMag := m.zMag.AddPoint (toFloat t) (toFloat v9),
      AccelerationMagnitude := m.AccelerationMagnitude.AddPoint (toFloat t) (phaseMag m t) }) := by
  have hlen := length_ge_of_count s h13
  have r1 : (substr s (delimiterPositions s 1 + 1) (delimiterPositions s 2 - 1) >>= stoi) = .ok v1 := h1
  have r2 : (substr s (delimiterPositions s 2 + 1) (delimiterPositions s 3 - 1) >>= stoi) = .ok v2 := h2
  have r3 : (substr s (delimiterPositions s 3 + 1) (delimiterPositions s 4 - 1) >>= stoi) = .ok v3 := h3
  have r4 : (substr s (delimiterPositions s 4 + 1) (delimiterPositions s 5 - 1) >>= stoi) = .ok v4 := h4
  have r5 : (substr s (delimiterPositions s 5 + 1) (delimiterPositions s 6 - 1) >>= stoi) = .ok v5 := h5
  have r6 : (substr s (delimiterPositions s 6 + 1) (delimiterPositions s 7 - 1) >>= stoi) = .ok v6 := h6
  have r7 : (substr s (delimiterPositions s 7 + 1) (delimiterPositions s 8 - 1) >>= stoi) = .ok v7 := h7
  have r8 : (substr s (delimiterPositions s 8 + 1) (delimiterPositions s 9 - 1) >>= stoi) = .ok v8 := h8
  have r9 : (substr s (delimiterPositions s 9 + 1) (delimiterPositions s 10 - 1) >>= stoi) = .ok v9 := h9
  have r10 : (substr s (delimiterPositions s 10 + 1) (delimiterPositions s 11 - 1) >>= stoi) = .error e := h10
  simp only [ingest, h13, hlen, if_true, stoiSubstr, back_AddPoint, ImVec2.idx, logged,
    r1, r2, r3, r4, r5, r6, r7, r8, r9, r10]
  rfl

set_option maxRecDepth 1000000 in
theorem ingest_throw_11 (m : Main) (s : List Char) (t : Int) (h13 : s.count ':' ≥ 13)
    (v1 v2 v3 v4 v5 v6 v7 v8 v9 v10 : Int)
    (e : Exn)
    (h1 : readAt s 1 = .ok v1)
    (h2 : readAt s 2 = .ok v2)
    (h3 : readAt s 3 = .ok v3)
    (h4 : readAt s 4 = .ok v4)
    (h5 : readAt s 5 = .ok v5)
    (h6 : readAt s 6 = .ok v6)
    (h7 : readAt s 7 = .ok v7)
    (h8 : readAt s 8 = .ok v8)
    (h9 : readAt s 9 = .ok v9)
    (h10 : readAt s 10 = .ok v10)
    (h11 : readAt s 11 = .error e) :
    ingest m s t = .error (e, { m with
      lastData := s,
      xOrient := m.xOrient.AddPoint (toFloat t) (toFloat v1),
      yOrient := m.yOrient.AddPoint (toFloat t) (toFloat v2),
      zOrient := m.zOrient.AddPoint (toFloat t) (toFloat v3),
      xAccel := m.xAccel.AddPoint (toFloat t) (toFloat v4),
      yAccel := m.yAccel.AddPoint (toFloat t) (toFloat v5),
      zAccel := m.zAccel.AddPoint (toFloat t) (toFloat v6),
      xMag := m.xMag.AddPoint (toFloat t) (toFloat v7),
      yMag := m.yMag.AddPoint (toFloat t) (toFloat v8),
      zMag := m.zMag.AddPoint (toFloat t) (toFloat v9),
      force := m.force.AddPoint (toFloat t) (toFloat v10),
      AccelerationMagnitude := m.AccelerationMagnitude.AddPoint (toFloat t) (phaseMag m t) }) := by
  have hlen := length_ge_of_count s h13
  have r1 : (substr s (delimiterPositions s 1 + 1) (delimiterPositions s 2 - 1) >>= stoi) = .ok v1 := h1
  have r2 : (substr s (delimiterPositions s 2 + 1) (delimiterPositions s 3 - 1) >>= stoi) = .ok v2 := h2
  have r3 : (substr s (delimiterPositions s 3 + 1) (delimiterPositions s 4 - 1) >>= stoi) = .ok v3 := h3
  have r4 : (substr s (delimiterPositions s 4 + 1) (delimiterPositions s 5 - 1) >>= stoi) = .ok v4 := h4
  have r5 : (substr s (delimiterPositions s 5 + 1) (delimiterPositions s 6 - 1) >>= stoi) = .ok v5 := h5
  have r6 : (substr s (delimiterPositions s 6 + 1) (delimiterPositions s 7 - 1) >>= stoi) = .ok v6 := h6
  have r7 : (substr s (delimiterPositions s 7 + 1) (delimiterPositions s 8 - 1) >>= stoi) = .ok v7 := h7
  have r8 : (substr s (delimiterPositions s 8 + 1) (delimiterPositions s 9 - 1) >>= stoi) = .ok v8 := h8
  have r9 : (substr s (delimiterPositions s 9 + 1) (delimiterPositions s 10 - 1) >>= stoi) = .ok v9 := h9
  have r10 : (substr s (delimiterPositions s 10 + 1) (delimiterPositions s 11 - 1) >>= stoi) = .ok v10 := h10
  have r11 : (substr s (delimiterPositions s 11 + 1) (delimiterPositions s 12 - 1) >>= stoi) = .error e := h11
  simp only [ingest, h13, hlen, if_true, stoiSubstr, back_AddPoint, ImVec2.idx, logged,
    r1, r2, r3, r4, r5, r6, r7, r8, r9, r10, r11]
  rfl

set_option maxRecDepth 1000000 in
theorem ingest_throw_12 (m : Main) (s : List Char) (t : Int) (h13 : s.count ':' ≥ 13)
    (v1 v2 v3 v4 v5 v6 v7 v8 v9 v10 v11 : Int)
    (e : Exn)
    (h1 : readAt s 1 = .ok v1)
    (h2 : readAt s 2 = .ok v2)
    (h3 : readAt s 3 = .ok v3)
    (h4 : readAt s 4 = .ok v4)
    (h5 : readAt s 5 = .ok v5)
    (h6 : readAt s 6 = .ok v6)
    (h7 : readAt s 7 = .ok v7)
    (h8 : readAt s 8 = .ok v8)
    (h9 : readAt s 9 = .ok v9)
    (h10 : readAt s 10 = .ok v10)
    (h11 : readAt s 11 = .ok v11)
    (h12 : readAt s 12 = .error e) :
    ingest m s t = .error (e, { m with
      lastData := s,
      xOrient := m.xOrient.AddPoint (toFloat t) (toFloat v1),
      yOrient := m.yOrient.AddPoint (toFloat t) (toFloat v2),
      zOrient := m.zOrient.AddPoint (toFloat t) (toFloat v3),
      xAccel := m.xAccel.AddPoint (toFloat t) (toFloat v4),
      yAccel := m.yAccel.AddPoint (toFloat t) (toFloat v5),
      zAccel := m.zAccel.AddPoint (toFloat t) (toFloat v6),
      xMag := m.xMag.AddPoint (toFloat t) (toFloat v7),
      yMag := m.yMag.AddPoint (toFloat t) (toFloat v8),
      zMag := m.zMag.AddPoint (toFloat t) (toFloat v9),
      force := m.force.AddPoint (toFloat t) (toFloat v10),
      temp := m.temp.AddPoint (toFloat t) (toFloat v11),
      AccelerationMagnitude := m.AccelerationMagnitude.AddPoint (toFloat t) (phaseMag m t) }) := by
  have hlen := length_ge_of_count s h13
  have r1 : (substr s (delimiterPositions s 1 + 1) (delimiterPositions s 2 - 1) >>= stoi) = .ok v1 := h1
  have r2 : (substr s (delimiterPositions s 2 + 1) (delimiterPositions s 3 - 1) >>= stoi) = .ok v2 := h2
  have r3 : (substr s (delimiterPositions s 3 + 1) (delimiterPositions s 4 - 1) >>= stoi) = .ok v3 := h3
  have r4 : (substr s (delimiterPositions s 4 + 1) (delimiterPositions s 5 - 1) >>= stoi) = .ok v4 := h4
  have r5 : (substr s (delimiterPositions s 5 + 1) (delimiterPositions s 6 - 1) >>= stoi) = .ok v5 := h5
  have r6 : (substr s (delimiterPositions s 6 + 1) (delimiterPositions s 7 - 1) >>= stoi) = .ok v6 := h6
  have r7 : (substr s (delimiterPositions s 7 + 1) (delimiterPositions s 8 - 1) >>= stoi) = .ok v7 := h7
  have r8 : (substr s (delimiterPositions s 8 + 1) (delimiterPositions s 9 - 1) >>= stoi) = .ok v8 := h8
  have r9 : (substr s (delimiterPositions s 9 + 1) (delimiterPositions s 10 - 1) >>= stoi) = .ok v9 := h9
  have r10 : (substr s (delimiterPositions s 10 + 1) (delimiterPositions s 11 - 1) >>= stoi) = .ok v10 := h10
  have r11 : (substr s (delimiterPositions s 11 + 1) (delimiterPositions s 12 - 1) >>= stoi) = .ok v11 := h11
  have r12 : (substr s (delimiterPositions s 12 + 1) (delimiterPositions s 13 - 1) >>= stoi) = .error e := h12
  simp only [ingest, h13, hlen, if_true, stoiSubstr, back_AddPoint, ImVec2.idx, logged,
    r1, r2, r3, r4, r5, r6, r7, r8, r9, r10, r11, r12]
  rfl

set_option maxRecDepth 1000000 in
theorem ingest_throw_14 (m : Main) (s : List Char) (t : Int) (h13 : s.count ':' ≥ 13)
    (v1 v2 v3 v4 v5 v6 v7 v8 v9 v10 v11 v12 : Int)
    (e : Exn)
    (h1 : readAt s 1 = .ok v1)
    (h2 : readAt s 2 = .ok v2)
    (h3 : readAt s 3 = .ok v3)
    (h4 : readAt s 4 = .ok v4)
    (h5 : readAt s 5 = .ok v5)
    (h6 : readAt s 6 = .ok v6)
    (h7 : readAt s 7 = .ok v7)
    (h8 : readAt s 8 = .ok v8)
    (h9 : readAt s 9 = .ok v9)
    (h10 : readAt s 10 = .ok v10)
    (h11 : readAt s 11 = .ok v11)
    (h12 : readAt s 12 = .ok v12)
    (h14 : readAt s 14 = .error e) :
    ingest m s t = .error (e, { m with
      lastData := s,
      xOrient := m.xOrient.AddPoint (toFloat t) (toFloat v1),
      yOrient := m.yOrient.AddPoint (toFloat t) (toFloat v2),
      zOrient := m.zOrient.AddPoint (toFloat t) (toFloat v3),
      xAccel := m.xAccel.AddPoint (toFloat t) (toFloat v4),
      yAccel := m.yAccel.AddPoint (toFloat t) (toFloat v5),
      zAccel := m.zAccel.AddPoint (toFloat t) (toFloat v6),
      xMag := m.xMag.AddPoint (toFloat t) (toFloat v7),
      yMag := m.yMag.AddPoint (toFloat t) (toFloat v8),
      zMag := m.zMag.AddPoint (toFloat t) (toFloat v9),
      force := m.force.AddPoint (toFloat t) (toFloat v10),
      temp := m.temp.AddPoint (toFloat t) (toFloat v11),
      time := m.time.AddPoint (toFloat t) (toFloat v12),
      AccelerationMagnitude := m.AccelerationMagnitude.AddPoint (toFloat t) (phaseMag m t) }) := by
  have hlen := length_ge_of_count s h13
  have r1 : (substr s (delimiterPositions s 1 + 1) (delimiterPositions s 2 - 1) >>= stoi) = .ok v1 := h1
  have r2 : (substr s (delimiterPositions s 2 + 1) (delimiterPositions s 3 - 1) >>= stoi) = .ok v2 := h2
  have r3 : (substr s (delimiterPositions s 3 + 1) (delimiterPositions s 4 - 1) >>= stoi) = .ok v3 := h3
  have r4 : (substr s (delimiterPositions s 4 + 1) (delimiterPositions s 5 - 1) >>= stoi) = .ok v4 := h4
  have r5 : (substr s (delimiterPositions s 5 + 1) (delimiterPositions s 6 - 1) >>= stoi) = .ok v5 := h5
  have r6 : (substr s (delimiterPositions s 6 + 1) (delimiterPositions s 7 - 1) >>= stoi) = .ok v6 := h6
  have r7 : (substr s (delimiterPositions s 7 + 1) (delimiterPositions s 8 - 1) >>= stoi) = .ok v7 := h7
  have r8 : (substr s (delimiterPositions s 8 + 1) (delimiterPositions s 9 - 1) >>= stoi) = .ok v8 := h8
  have r9 : (substr s (delimiterPositions s 9 + 1) (delimiterPositions s 10 - 1) >>= stoi) = .ok v9 := h9
  have r10 : (substr s (delimiterPositions s 10 + 1) (delimiterPositions s 11 - 1) >>= stoi) = .ok v10 := h10
  have r11 : (substr s (delimiterPositions s 11 + 1) (delimiterPositions s 12 - 1) >>= stoi) = .ok v11 := h11
  have r12 : (substr s (delimiterPositions s 12 + 1) (delimiterPositions s 13 - 1) >>= stoi) = .ok v12 := h12
  have r14 : (substr s (delimiterPositions s 14 + 1) (delimiterPositions s 15) >>= stoi) = .error e := h14
  simp only [ingest, h13, hlen, if_true, stoiSubstr, back_AddPoint, ImVec2.idx, logged,
    r1, r2, r3, r4, r5, r6, r7, r8, r9, r10, r11, r12, r14]
  rfl

set_option maxRecDepth 1000000 in
theorem ingest_done (m : Main) (s : List Char) (t : Int) (h13 : s.count ':' ≥ 13)
    (v1 v2 v3 v4 v5 v6 v7 v8 v9 v10 v11 v12 v14 : Int)
    (h1 : readAt s 1 = .ok v1)
    (h2 : readAt s 2 = .ok v2)
    (h3 : readAt s 3 = .ok v3)
    (h4 : readAt s 4 = .ok v4)
    (h5 : readAt s 5 = .ok v5)
    (h6 : readAt s 6 = .ok v6)
    (h7 : readAt s 7 = .ok v7)
    (h8 : readAt s 8 = .ok v8)
    (h9 : readAt s 9 = .ok v9)
    (h10 : readAt s 10 = .ok v10)
    (h11 : readAt s 11 = .ok v11)
    (h12 : readAt s 12 = .ok v12)
    (h14 : readAt s 14 = .ok v14) :
    ingest m s t = .ok (logged m t { m with
      lastData := s,
      xOrient := m.xOrient.AddPoint (toFloat t) (toFloat v1),
      yOrient := m.yOrient.AddPoint (toFloat t) (toFloat v2),
      zOrient := m.zOrient.AddPoint (toFloat t) (toFloat v3),
      xAccel := m.xAccel.AddPoint (toFloat t) (toFloat v4),
      yAccel := m.yAccel.AddPoint (toFloat t) (toFloat v5),
      zAccel := m.zAccel.AddPoint (toFloat t) (toFloat v6),
      xMag := m.xMag.AddPoint (toFloat t) (toFloat v7),
      yMag := m.yMag.AddPoint (toFloat t) (toFloat v8),
      zMag := m.zMag.AddPoint (toFloat t) (toFloat v9),
      force := m.force.AddPoint (toFloat t) (toFloat v10),
      temp := m.temp.AddPoint (toFloat t) (toFloat v11),
      time := m.time.AddPoint (toFloat t) (toFloat v12),
      altitude := m.altitude.AddPoint (toFloat t) (toFloat v14),
      AccelerationMagnitude := m.AccelerationMagnitude.AddPoint (toFloat t) (phaseMag m t) }) := by
  have hlen := length_ge_of_count s h13
  have r1 : (substr s (delimiterPositions s 1 + 1) (delimiterPositions s 2 - 1) >>= stoi) = .ok v1 := h1
  have r2 : (substr s (delimiterPositions s 2 + 1) (delimiterPositions s 3 - 1) >>= stoi) = .ok v2 := h2
  have r3 : (substr s (delimiterPositions s 3 + 1) (delimiterPositions s 4 - 1) >>= stoi) = .ok v3 := h3
  have r4 : (substr s (delimiterPositions s 4 + 1) (delimiterPositions s 5 - 1) >>= stoi) = .ok v4 := h4
  have r5 : (substr s (delimiterPositions s 5 + 1) (delimiterPositions s 6 - 1) >>= stoi) = .ok v5 := h5
  have r6 : (substr s (delimiterPositions s 6 + 1) (delimiterPositions s 7 - 1) >>= stoi) = .ok v6 := h6
  have r7 : (substr s (delimiterPositions s 7 + 1) (delimiterPositions s 8 - 1) >>= stoi) = .ok v7 := h7
  have r8 : (substr s (delimiterPositions s 8 + 1) (delimiterPositions s 9 - 1) >>= stoi) = .ok v8 := h8
  have r9 : (substr s (delimiterPositions s 9 + 1) (delimiterPositions s 10 - 1) >>= stoi) = .ok v9 := h9
  have r10 : (substr s (delimiterPositions s 10 + 1) (delimiterPositions s 11 - 1) >>= stoi) = .ok v10 := h10
  have r11 : (substr s (delimiterPositions s 11 + 1) (delimiterPositions s 12 - 1) >>= stoi) = .ok v11 := h11
  have r12 : (substr s (delimiterPositions s 12 + 1) (delimiterPositions s 13 - 1) >>= stoi) = .ok v12 := h12
  have r14 : (substr s (delimiterPositions s 14 + 1) (delimiterPositions s 15) >>= stoi) = .ok v14 := h14
  simp only [ingest, h13, hlen, if_true, stoiSubstr, back_AddPoint, ImVec2.idx, logged,
    r1, r2, r3, r4, r5, r6, r7, r8, r9, r10, r11, r12, r14]
  cases m.logData <;> rfl

theorem ingest_eq_of (m : Main) (s : List Char) (t : Int) (h13 : s.count ':' ≥ 13)
    (rd : Nat → Except Exn Int) (hrd : ∀ k, readAt s k = rd k) :
    ingest m s t = outcomeOf rd m s t := by
  rcases h1 : rd 1 with e | v1
  · rw [ingest_throw_1 m s t h13  e ((hrd 1).trans h1)]
    simp [outcomeOf, firstThrowIn, reads, upTo, valOf, phaseMag, h1]
  rcases h2 : rd 2 with e | v2
  · rw [ingest_throw_2 m s t h13 v1 e ((hrd 1).trans h1) ((hrd 2).trans h2)]
    simp [outcomeOf, firstThrowIn, reads, upTo, valOf, phaseMag, h1, h2]
  rcases h3 : rd 3 with e | v3
  · rw [ingest_throw_3 m s t h13 v1 v2 e ((hrd 1).trans h1) ((hrd 2).trans h2) ((hrd 3).trans h3)]
    simp [outcomeOf, firstThrowIn, reads, upTo, valOf, phaseMag, h1, h2, h3]
  rcases h4 : rd 4 with e | v4
  · rw [ingest_throw_4 m s t h13 v1 v2 v3 e ((hrd 1).trans h1) ((hrd 2).trans h2) ((hrd 3).trans h3) ((hrd 4).trans h4)]
    simp [outcomeOf, firstThrowIn, reads, upTo, valOf, phaseMag, h1, h2, h3, h4]
  rcases h5 : rd 5 with e | v5
  · rw [ingest_throw_5 m s t h13 v1 v2 v3 v4 e ((hrd 1).trans h1) ((hrd 2).trans h2) ((hrd 3).trans h3) ((hrd 4).trans h4) ((hrd 5).trans h5)]
    simp [outcomeOf, firstThrowIn, reads, upTo, valOf, phaseMag, h1, h2, h3, h4, h5]
  rcases h6 : rd 6 with e | v6
  · rw [ingest_throw_6 m s t h13 v1 v2 v3 v4 v5 e ((hrd 1).trans h1) ((hrd 2).trans h2) ((hrd 3).trans h3) ((hrd 4).trans h4) ((hrd 5).trans h5) ((hrd 6).trans h6)]
    simp [outcomeOf, firstThrowIn, reads, upTo, valOf, phaseMag, h1, h2, h3, h4, h5, h6]
  rcases h7 : rd 7 with e | v7
  · rw [ingest_throw_7 m s t h13 v1 v2 v3 v4 v5 v6 e ((hrd 1).trans h1) ((hrd 2).trans h2) ((hrd 3).trans h3) ((hrd 4).trans h4) ((hrd 5).trans h5) ((hrd 6).trans h6) ((hrd 7).trans h7)]
    simp [outcomeOf, firstThrowIn, reads, upTo, valOf, phaseMag, h1, h2, h3, h4, h5, h6, h7]
  rcases h8 : rd 8 with e | v8
  · rw [ingest_throw_8 m s t h13 v1 v2 v3 v4 v5 v6 v7 e ((hrd 1).trans h1) ((hrd 2).trans h2) ((hrd 3).trans h3) ((hrd 4).trans h4) ((hrd 5).trans h5) ((hrd 6).trans h6) ((hrd 7).trans h7) ((hrd 8).trans h8)]
    simp [outcomeOf, firstThrowIn, reads, upTo, valOf, phaseMag, h1, h2, h3, h4, h5, h6, h7, h8]
  rcases h9 : rd 9 with e | v9
  · rw [ingest_throw_9 m s t h13 v1 v2 v3 v4 v5 v6 v7 v8 e ((hrd 1).trans h1) ((hrd 2).trans h2) ((hrd 3).trans h3) ((hrd 4).trans h4) ((hrd 5).trans h5) ((hrd 6).trans h6) ((hrd 7).trans h7) ((hrd 8).trans h8) ((hrd 9).trans h9)]
    simp [outcomeOf, firstThrowIn, reads, upTo, valOf, phaseMag, h1, h2, h3, h4, h5, h6, h7, h8, h9]
  rcases h10 : rd 10 with e | v10
  · rw [ingest_throw_10 m s t h13 v1 v2 v3 v4 v5 v6 v7 v8 v9 e ((hrd 1).trans h1) ((hrd 2).trans h2) ((hrd 3).trans h3) ((hrd 4).trans h4) ((hrd 5).trans h5) ((hrd 6).trans h6) ((hrd 7).trans h7) ((hrd 8).trans h8) ((hrd 9).trans h9) ((hrd 10).trans h10)]
    simp [outcomeOf, firstThrowIn, reads, upTo, valOf, phaseMag, h1, h2, h3, h4, h5, h6, h7, h8, h9, h10]
  rcases h11 : rd 11 with e | v11
  · rw [ingest_throw_11 m s t h13 v1 v2 v3 v4 v5 v6 v7 v8 v9 v10 e ((hrd 1).trans h1) ((hrd 2).trans h2) ((hrd 3).trans h3) ((hrd 4).trans h4) ((hrd 5).trans h5) ((hrd 6).trans h6) ((hrd 7).trans h7) ((hrd 8).trans h8) ((hrd 9).trans h9) ((hrd 10).trans h10) ((hrd 11).trans h11)]
    simp [outcomeOf, firstThrowIn, reads, upTo, valOf, phaseMag, h1, h2, h3, h4, h5, h6, h7, h8, h9, h10, h11]
  rcases h12 : rd 12 with e | v12
  · rw [ingest_throw_12 m s t h13 v1 v2 v3 v4 v5 v6 v7 v8 v9 v10 v11 e ((hrd 1).trans h1) ((hrd 2).trans h2) ((hrd 3).trans h3) ((hrd 4).trans h4) ((hrd 5).trans h5) ((hrd 6).trans h6) ((hrd 7).trans h7) ((hrd 8).trans h8) ((hrd 9).trans h9) ((hrd 10).trans h10) ((hrd 11).trans h11) ((hrd 12).trans h12)]
    simp [outcomeOf, firstThrowIn, reads, upTo, valOf, phaseMag, h1, h2, h3, h4, h5, h6, h7, h8, h9, h10, h11, h12]
  rcases h14 : rd 14 with e | v14
  · rw [ingest_throw_14 m s t h13 v1 v2 v3 v4 v5 v6 v7 v8 v9 v10 v11 v12 e ((hrd 1).trans h1) ((hrd 2).trans h2) ((hrd 3).trans h3) ((hrd 4).trans h4) ((hrd 5).trans h5) ((hrd 6).trans h6) ((hrd 7).trans h7) ((hrd 8).trans h8) ((hrd 9).trans h9) ((hrd 10).trans h10) ((hrd 11).trans h11) ((hrd 12).trans h12) ((hrd 14).trans h14)]
    simp [outcomeOf, firstThrowIn, reads, upTo, valOf, phaseMag, h1, h2, h3, h4, h5, h6, h7, h8, h9, h10, h11, h12, h14]
  rw [ingest_done m s t h13 v1 v2 v3 v4 v5 v6 v7 v8 v9 v10 v11 v12 v14 ((hrd 1).trans h1) ((hrd 2).trans h2) ((hrd 3).trans h3) ((hrd 4).trans h4) ((hrd 5).trans h5) ((hrd 6).trans h6) ((hrd 7).trans h7) ((hrd 8).trans h8) ((hrd 9).trans h9) ((hrd 10).trans h10) ((hrd 11).trans h11) ((hrd 12).trans h12) ((hrd 14).trans h14)]
  simp [outcomeOf, firstThrowIn, reads, upTo, valOf, phaseMag, h1, h2, h3, h4, h5, h6, h7, h8, h9, h10, h11, h12, h14]

/-- On a text with at least 13 separators `ingest` is determined by its reads. -/
theorem ingest_eq (m : Main) (s : List Char) (t : Int) (h13 : s.count ':' ≥ 13) :
    ingest m s t = outcomeOf (readAt s) m s t :=
  ingest_eq_of m s t h13 (readAt s) (fun _ => rfl)

/-! ## Lemmas on the first failing read -/

theorem firstThrowIn_none (rd : Nat → Except Exn Int) (ks : List Nat) :
    firstThrowIn rd ks = none ↔ ∀ k ∈ ks, ∃ v, rd k = .ok v := by
  induction ks with
  | nil => simp [firstThrowIn]
  | cons k ks ih =>
    rcases h : rd k with e | v
    · simp [firstThrowIn, h]
    · simp [firstThrowIn, h, ih]

theorem firstThrowIn_some (rd : Nat → Except Exn Int) (ks : List Nat) (k : Nat) (e : Exn)
    (h : firstThrowIn rd ks = some (k, e)) :
    ∃ pre post, ks = pre ++ k :: post ∧ rd k = .error e ∧ ∀ j ∈ pre, ∃ v, rd j = .ok v := by
  induction ks with
  | nil => simp [firstThrowIn] at h
  | cons a ks ih =>
    rcases ha : rd a with e' | v
    · simp only [firstThrowIn, ha, Option.some.injEq, Prod.mk.injEq] at h
      obtain ⟨rfl, rfl⟩ := h
      exact ⟨[], ks, rfl, ha, by simp⟩
    · simp only [firstThrowIn, ha] at h
      obtain ⟨pre, post, hks, hk, hpre⟩ := ih h
      refine ⟨a :: pre, post, by rw [hks]; rfl, hk, ?_⟩
      intro j hj
      rcases List.mem_cons.mp hj with rfl | hj
      · exact ⟨v, ha⟩
      · exact hpre j hj

theorem firstThrowIn_isSome (rd : Nat → Except Exn Int) (ks : List Nat)
    (h : ∃ k ∈ ks, ∃ e, rd k = .error e) : ∃ k e, firstThrowIn rd ks = some (k, e) := by
  rcases hf : firstThrowIn rd ks with _ | ⟨k, e⟩
  · obtain ⟨k, hk, e, he⟩ := h
    obtain ⟨v, hv⟩ := (firstThrowIn_none rd ks).mp hf k hk
    rw [he] at hv
    cases hv
  · exact ⟨k, e, rfl⟩

theorem reads_sorted : reads.Pairwise (· < ·) := by decide

theorem reads_before (pre post : List Nat) (k : Nat) (h : reads = pre ++ k :: post) :
    k ∈ reads ∧ ∀ j ∈ reads, j < k → j ∈ pre := by
  have hs := reads_sorted
  rw [h] at hs ⊢
  refine ⟨by simp, ?_⟩
  intro j hj hlt
  rcases List.mem_append.mp hj with hj | hj
  · exact hj
  · exfalso
    have h2 := (List.pairwise_append.mp hs).2.1
    rcases List.mem_cons.mp hj with rfl | hj
    · exact lt_irrefl _ hlt
    · have := (List.pairwise_cons.mp h2).1 j hj
      omega


theorem addFirst_length (t : Int) (vs : List Int) :
    ∀ bs : List RollingBuffer, (addFirst t vs bs).length = bs.length := by
  induction vs with
  | nil => intro bs; cases bs <;> rfl
  | cons v vs ih =>
    intro bs
    cases bs with
    | nil => rfl
    | cons b bs => simp [addFirst, ih]

theorem chans_upTo (m : Main) (s : List Char) (t : Int) (v : Nat → Int) (k : Nat)
    (hk : k ∈ reads) :
    (upTo m s t v k).chans = addFirst t ((allVals m t v).take (chanIndex k)) m.chans := by
  simp only [reads, List.mem_cons, List.mem_singleton, List.not_mem_nil, or_false] at hk
  rcases hk with rfl | rfl | rfl | rfl | rfl | rfl | rfl | rfl | rfl | rfl | rfl | rfl | rfl <;> rfl

theorem chanIndex_lt (k : Nat) (hk : k ∈ reads) : chanIndex k < 14 := by
  revert k; decide

/-- When some read throws, the ingest code stops at the first such read `k`: the
channels before the one fed by read `k` hold a new point, the others and the log are
untouched. -/
theorem outcomeOf_throw (rd : Nat → Except Exn Int) (m : Main) (s : List Char) (t : Int)
    (hfail : ∃ k ∈ reads, ∃ e, rd k = .error e) :
    ∃ k e, k ∈ reads ∧ rd k = .error e ∧ (∀ j ∈ reads, j < k → ∃ v, rd j = .ok v)
      ∧ outcomeOf rd m s t = .error (e, upTo m s t (valOf rd) k) := by
  obtain ⟨k, e, hf⟩ := firstThrowIn_isSome rd reads hfail
  obtain ⟨pre, post, hr, hk, hpre⟩ := firstThrowIn_some rd reads k e hf
  obtain ⟨hmem, hbefore⟩ := reads_before pre post k hr
  refine ⟨k, e, hmem, hk, fun j hj hlt => hpre j (hbefore j hj hlt), ?_⟩
  unfold outcomeOf
  rw [hf]

theorem outcomeOf_done (rd : Nat → Except Exn Int) (m : Main) (s : List Char) (t : Int)
    (hok : ∀ k ∈ reads, ∃ v, rd k = .ok v) :
    outcomeOf rd m s t = .ok (logged m t (upTo m s t (valOf rd) 15)) := by
  unfold outcomeOf
  rw [(firstThrowIn_none rd reads).mpr hok]

theorem ingest_of_count_lt (m : Main) (incoming : List Char) (currentTime : Int)
    (h : incoming.count ':' < 13) : ingest m incoming currentTime = .ok m := by
  unfold ingest
  rw [if_neg (by omega)]
  rfl

/-! ## Claims on frame parsing and ingest -/

/-- C1, evaluated on the code: ingesting the spec's example frame
`Data:1:2:3:4:5:6:7:8:9:10:11:12:0:99:` does not succeed. Every read is one field late
(orientation receives 2, 3, 4, acceleration 5, 6, 7, magnetic 8, 9, 10, force 11,
temperature 12, mission time 0), and the altitude read starts after the last
separator, finds no digits and throws `invalid_argument`. -/
theorem exampleFrame_ingest :
    ingest Main.init exampleFrame 0 = .error (Exn.invalid_argument, exampleFrameState) := by
  decide

/-- C2: a received text with fewer than 13 separators is not ingested: the state after
the ingest step is the state before it, so every channel, the last accepted frame text
and the log are unchanged. -/
theorem ingest_too_few (m : Main) (incoming : List Char) (currentTime : Int)
    (h : incoming.count ':' < 13) : ingest m incoming currentTime = .ok m :=
  ingest_of_count_lt m incoming currentTime h

/-- Witness for C2: the frame with 5 separators, the empty text of a read timeout and
the placeholder `nothin` of a frame without a result. -/
theorem ingest_too_few_witness :
    shortFrame.count ':' < 13
    ∧ ingest Main.init shortFrame 7 = .ok Main.init
    ∧ ingest Main.init [] 7 = .ok Main.init
    ∧ ingest Main.init "nothin".toList 7 = .ok Main.init :=
  ⟨by decide, ingest_too_few Main.init shortFrame 7 (by decide),
   ingest_too_few Main.init [] 7 (by decide),
   ingest_too_few Main.init "nothin".toList 7 (by decide)⟩

/-- C3 as stated fails: `badFieldFrame` has 15 separators and its read 2 throws, yet
the channel `xOrient` has already received the point of read 1. -/
theorem ingest_not_atomic :
    badFieldFrame.count ':' ≥ 13
    ∧ ingest Main.init badFieldFrame 3 = .error (Exn.invalid_argument, badFieldState)
    ∧ badFieldState.xOrient.Data ≠ Main.init.xOrient.Data := by
  decide

/-- C3, amended: when a read of a frame with at least 13 separators throws, `ingest`
stops at the first such read `k` with its exception: the channels that precede the
channel of read `k` in program order have received a point, the channel of read `k`
and all later ones are unchanged, and nothing is written to the log. -/
theorem ingest_stops_at_first_throw (m : Main) (s : List Char) (t : Int) (h13 : s.count ':' ≥ 13)
    (hfail : ∃ k ∈ reads, ∃ e, readAt s k = .error e) :
    ∃ k e m' vs, k ∈ reads ∧ readAt s k = .error e
      ∧ (∀ j ∈ reads, j < k → ∃ v, readAt s j = .ok v)
      ∧ ingest m s t = .error (e, m')
      ∧ vs.length = chanIndex k
      ∧ m'.chans = addFirst t vs m.chans
      ∧ m'.dataFile = m.dataFile := by
  obtain ⟨k, e, hk, he, hbefore, hout⟩ := outcomeOf_throw (readAt s) m s t hfail
  refine ⟨k, e, upTo m s t (valOf (readAt s)) k,
    (allVals m t (valOf (readAt s))).take (chanIndex k), hk, he, hbefore, ?_, ?_, ?_, rfl⟩
  · rw [ingest_eq m s t h13, hout]
  · have := chanIndex_lt k hk
    simp only [List.length_take, allVals, List.length_cons, List.length_nil]
    omega
  · exact chans_upTo m s t _ k hk

/-- Witness for C3: `badFieldFrame` at time 3. -/
theorem ingest_stops_at_first_throw_witness :
    badFieldFrame.count ':' ≥ 13 ∧ (∃ k ∈ reads, ∃ e, readAt badFieldFrame k = .error e)
    ∧ ∃ k e m' vs, k ∈ reads ∧ readAt badFieldFrame k = .error e
      ∧ (∀ j ∈ reads, j < k → ∃ v, readAt badFieldFrame j = .ok v)
      ∧ ingest Main.init badFieldFrame 3 = .error (e, m')
      ∧ vs.length = chanIndex k
      ∧ m'.chans = addFirst 3 vs Main.init.chans
      ∧ m'.dataFile = Main.init.dataFile :=
  ⟨by decide, ⟨2, by decide, Exn.invalid_argument, by decide⟩,
   ingest_stops_at_first_throw Main.init badFieldFrame 3 (by decide)
     ⟨2, by decide, Exn.invalid_argument, by decide⟩⟩

theorem isspace_of_isdigit (c : Char) (h : isdigit c = true) : isspace c = false := by
  simp only [isdigit, Bool.and_eq_true, decide_eq_true_eq] at h
  simp only [isspace, Bool.or_eq_false_iff, decide_eq_false_iff_not, Bool.and_eq_false_iff]
  omega

/-- The function `stoi` reads a leading run of digits and ignores what follows it. -/
theorem stoi_digits_append (ds rest : List Char) (hne : ds ≠ [])
    (hd : ∀ c ∈ ds, isdigit c = true) (hr : ∀ c, rest.head? = some c → isdigit c = false)
    (hfit : digitsVal ds ≤ 2147483647) : stoi (ds ++ rest) = .ok (digitsVal ds : Int) := by
  obtain ⟨d, ds', rfl⟩ := List.exists_cons_of_ne_nil hne
  have hdig : isdigit d = true := hd d (List.mem_cons_self _ _)
  have hsp : ¬ isspace d = true := by simp [isspace_of_isdigit d hdig]
  have hminus : d ≠ '-' := by
    rintro rfl
    exact absurd hdig (by decide)
  have hplus : d ≠ '+' := by
    rintro rfl
    exact absurd hdig (by decide)
  have htake : ((d :: ds') ++ rest).takeWhile isdigit = d :: ds' := by
    rw [List.takeWhile_append_of_pos hd]
    have : rest.takeWhile isdigit = [] := by
      cases rest with
      | nil => rfl
      | cons c cs =>
        have hc := hr c rfl
        simp [List.takeWhile, hc]
    rw [this, List.append_nil]
  have hdrop : ((d :: ds') ++ rest).dropWhile isspace = (d :: ds') ++ rest := by
    rw [List.cons_append, List.dropWhile_cons_of_neg hsp]
  unfold stoi
  simp only [hdrop]
  have hhead : ((d :: ds') ++ rest).head? = some d := rfl
  simp only [hhead, Option.some.injEq, hminus, hplus, or_self, if_false, htake, decide_False,
    List.isEmpty_cons, Bool.false_eq_true]
  have h1 : ¬ ((digitsVal (d :: ds') : Int) < -2147483648 ∨
      (2147483647 : Int) < (digitsVal (d :: ds') : Int)) := by
    omega
  rw [if_neg h1]

/-- What an accepted frame appends to the derived channel is computed from the phases
of the three acceleration channels: the decoded values do not enter it, and two frames
accepted at the same time in the same state leave the same derived channel. -/
theorem ingest_magnitude (m m1 m2 : Main) (s1 s2 : List Char) (t : Int)
    (h1 : s1.count ':' ≥ 13) (h2 : s2.count ':' ≥ 13)
    (g1 : ingest m s1 t = .ok m1) (g2 : ingest m s2 t = .ok m2) :
    m1.AccelerationMagnitude = m2.AccelerationMagnitude := by
  have key : ∀ (s : List Char) (m' : Main), s.count ':' ≥ 13 → ingest m s t = .ok m' →
      m'.AccelerationMagnitude = m.AccelerationMagnitude.AddPoint (toFloat t)
        (vecMag (fmodf (toFloat t) m.xAccel.Span) (fmodf (toFloat t) m.yAccel.Span)
          (fmodf (toFloat t) m.zAccel.Span)) := by
    intro s m' h13 h
    rw [ingest_eq m s t h13] at h
    generalize readAt s = rd at h
    unfold outcomeOf at h
    rcases hf : firstThrowIn rd reads with _ | ⟨k, e⟩
    · rw [hf] at h
      simp only [Except.ok.injEq] at h
      subst h
      unfold logged
      cases m.logData <;> rfl
    · rw [hf] at h
      cases h
  rw [key s1 m1 h1 g1, key s2 m2 h2 g2]

/-- C7, evaluated on the code: `accelFrame` is accepted at time 0, the acceleration
channels receive 3, 4 and 0, whose norm `vecMag 3 4 0` is 5, and the derived channel
receives 0. -/
theorem accelFrame_ingest :
    ingest Main.init accelFrame 0 = .ok accelState
    ∧ back accelState.xAccel.Data = ⟨0, 3⟩
    ∧ back accelState.yAccel.Data = ⟨0, 4⟩
    ∧ back accelState.zAccel.Data = ⟨0, 0⟩
    ∧ vecMag 3 4 0 = 5
    ∧ back accelState.AccelerationMagnitude.Data = ⟨0, 0⟩ := by
  decide

theorem and_two_pow_ne_zero (n i : Nat) : n &&& 2 ^ i ≠ 0 ↔ n.testBit i = true := by
  rw [Nat.and_two_pow]
  cases h : n.testBit i <;> simp

theorem or_and_two_pow_left (a b i : Nat) (h : a &&& 2 ^ i ≠ 0) : (a ||| b) &&& 2 ^ i ≠ 0 := by
  rw [and_two_pow_ne_zero] at h ⊢
  rw [Nat.testBit_or, h, Bool.true_or]

theorem or_and_two_pow_self (a i : Nat) : (a ||| 2 ^ i) &&& 2 ^ i ≠ 0 := by
  rw [and_two_pow_ne_zero, Nat.testBit_or, Nat.testBit_two_pow_self, Bool.or_true]

theorem or_and_two_pow_right (a i j : Nat) (hij : j ≠ i) :
    ((a ||| 2 ^ j) &&& 2 ^ i ≠ 0 ↔ a &&& 2 ^ i ≠ 0) := by
  rw [and_two_pow_ne_zero, and_two_pow_ne_zero, Nat.testBit_or, Nat.testBit_two_pow_of_ne hij,
    Bool.or_false]


/-! ## Lemmas on the main loop -/

/-- The ingest code leaves the control variables alone, whether it returns or throws. -/
theorem ingest_control (m r : Main) (s : List Char) (t : Int)
    (h : ingest m s t = .ok r ∨ ∃ e, ingest m s t = .error (e, r)) : r.control = m.control := by
  by_cases h13 : s.count ':' ≥ 13
  · rw [ingest_eq m s t h13] at h
    generalize readAt s = rd at h
    unfold outcomeOf at h
    rcases hf : firstThrowIn rd reads with _ | ⟨k, e⟩
    · rw [hf] at h
      rcases h with h | ⟨e, h⟩
      · simp only [Except.ok.injEq] at h
        subst h
        unfold logged
        cases m.logData <;> rfl
      · cases h
    · rw [hf] at h
      rcases h with h | ⟨e', h⟩
      · cases h
      · simp only [Except.error.injEq, Prod.mk.injEq] at h
        rw [← h.2]
        rfl
  · rw [ingest_of_count_lt m s t (by omega)] at h
    rcases h with h | ⟨e, h⟩
    · simp only [Except.ok.injEq] at h
      rw [h]
    · cases h

theorem control_fields (m r : Main) (h : r.control = m.control) :
    r.logData = m.logData ∧ r.history = m.history ∧ r.state = m.state
    ∧ r.dataThread = m.dataThread ∧ r.serialActions = m.serialActions
    ∧ r.passedSerialParams = m.passedSerialParams ∧ r.wire = m.wire
    ∧ r.launched = m.launched ∧ r.completed = m.completed ∧ r.drained = m.drained
    ∧ r.crashed = m.crashed := by
  simp only [Main.control, Prod.mk.injEq] at h
  exact h

theorem frame_eq (m : Main) (i : FrameInput) :
    frame m i =
      if i.connected then
        settle (ingest (poll m "nothin".toList).1 (poll m "nothin".toList).2 i.currentTime) i
      else m := rfl

theorem poll_running (m : Main) (inc : List Char) (task : Task)
    (h : m.dataThread = Future.running task) : poll m inc = (m, inc) := by
  unfold poll
  rw [h]

theorem poll_ready (m : Main) (inc text : List Char) (h : m.dataThread = Future.ready text) :
    poll m inc =
      ({ m with
          drained := m.drained + 1
          serialActions := m.serialActions ||| READ_SERIAL
          passedSerialParams := m.serialActions ||| READ_SERIAL
          dataThread := Future.running Task.serialCommTasks
          launched := m.launched + 1 }, text) := by
  unfold poll
  rw [h]

/-- The control variables after the ingest step of a frame, from those before it
(`p`): the step either crashes or runs the table block. -/
theorem settle_cases (p : Main) (s : List Char) (i : FrameInput) :
    ∃ r : Main, r.control = p.control ∧
      (settle (ingest p s i.currentTime) i = { r with crashed := some Exn.invalid_argument }
       ∨ settle (ingest p s i.currentTime) i = { r with crashed := some Exn.out_of_range }
       ∨ settle (ingest p s i.currentTime) i = (if i.tableShown then tableBlock r i else r)) := by
  rcases h : ingest p s i.currentTime with ⟨e, r⟩ | r
  · refine ⟨r, ingest_control p r s i.currentTime (Or.inr ⟨e, h⟩), ?_⟩
    cases e
    · exact Or.inl rfl
    · exact Or.inr (Or.inl rfl)
  · exact ⟨r, ingest_control p r s i.currentTime (Or.inl h), Or.inr (Or.inr rfl)⟩

theorem tableBlock_fields (r : Main) (i : FrameInput) :
    (tableBlock r i).dataThread = r.dataThread ∧ (tableBlock r i).launched = r.launched
    ∧ (tableBlock r i).completed = r.completed ∧ (tableBlock r i).drained = r.drained
    ∧ (tableBlock r i).passedSerialParams = r.passedSerialParams
    ∧ (tableBlock r i).wire = r.wire ∧ (tableBlock r i).crashed = r.crashed
    ∧ (tableBlock r i).state = r.state := by
  unfold tableBlock
  cases i.releasePressed <;> cases i.cancelPressed <;> simp

theorem tableBlock_serialActions (r : Main) (i : FrameInput) :
    (tableBlock r i).serialActions =
      ((if i.releasePressed then r.serialActions ||| SEND_ENABLE else r.serialActions) |||
        (if i.cancelPressed then SEND_DISABLE else 0)) := by
  unfold tableBlock
  cases i.releasePressed <;> cases i.cancelPressed <;> simp

/-- What the ingest step of a frame does to the variables of the acquisition and of
the dispatcher: only `crashed` and `serialActions` can change, and `serialActions`
only by the two buttons. -/
theorem settle_fields (p : Main) (s : List Char) (i : FrameInput) :
    (settle (ingest p s i.currentTime) i).dataThread = p.dataThread
    ∧ (settle (ingest p s i.currentTime) i).launched = p.launched
    ∧ (settle (ingest p s i.currentTime) i).completed = p.completed
    ∧ (settle (ingest p s i.currentTime) i).drained = p.drained
    ∧ (settle (ingest p s i.currentTime) i).passedSerialParams = p.passedSerialParams
    ∧ (settle (ingest p s i.currentTime) i).wire = p.wire
    ∧ (settle (ingest p s i.currentTime) i).state = p.state
    ∧ ((settle (ingest p s i.currentTime) i).serialActions = p.serialActions
        ∨ (settle (ingest p s i.currentTime) i).serialActions =
            ((if i.releasePressed then p.serialActions ||| SEND_ENABLE else p.serialActions) |||
              (if i.cancelPressed then SEND_DISABLE else 0))) := by
  obtain ⟨r, hr, hcase⟩ := settle_cases p s i
  obtain ⟨_, _, h3, h4, h5, h6, h7, h8, h9, h10, _⟩ := control_fields p r hr
  rcases hcase with h | h | h
  · rw [h]
    exact ⟨h4, h8, h9, h10, h6, h7, h3, Or.inl h5⟩
  · rw [h]
    exact ⟨h4, h8, h9, h10, h6, h7, h3, Or.inl h5⟩
  · rw [h]
    by_cases ht : i.tableShown = true
    · rw [if_pos ht]
      obtain ⟨t1, t2, t3, t4, t5, t6, _, t8⟩ := tableBlock_fields r i
      refine ⟨t1.trans h4, t2.trans h8, t3.trans h9, t4.trans h10, t5.trans h6, t6.trans h7,
        t8.trans h3, Or.inr ?_⟩
      rw [tableBlock_serialActions, h5]
    · rw [if_neg ht]
      exact ⟨h4, h8, h9, h10, h6, h7, h3, Or.inl h5⟩

/-- A frame that finds the task still running changes nothing in the acquisition. -/
theorem frame_running (m : Main) (i : FrameInput) (task : Task)
    (h : m.dataThread = Future.running task) :
    (frame m i).dataThread = m.dataThread ∧ (frame m i).launched = m.launched
    ∧ (frame m i).completed = m.completed ∧ (frame m i).drained = m.drained
    ∧ (frame m i).passedSerialParams = m.passedSerialParams ∧ (frame m i).wire = m.wire := by
  rw [frame_eq]
  by_cases hc : i.connected = true
  · rw [if_pos hc, poll_running m _ task h]
    obtain ⟨h1, h2, h3, h4, h5, h6, _, _⟩ := settle_fields m "nothin".toList i
    exact ⟨h1, h2, h3, h4, h5, h6⟩
  · rw [if_neg hc]
    exact ⟨rfl, rfl, rfl, rfl, rfl, rfl⟩

/-- A connected frame that finds the result ready takes it and launches the next cycle
with the mask `serialActions | READ_SERIAL`. -/
theorem frame_ready (m : Main) (i : FrameInput) (text : List Char) (hc : i.connected = true)
    (h : m.dataThread = Future.ready text) :
    (frame m i).dataThread = Future.running Task.serialCommTasks
    ∧ (frame m i).launched = m.launched + 1
    ∧ (frame m i).completed = m.completed ∧ (frame m i).drained = m.drained + 1
    ∧ (frame m i).passedSerialParams = m.serialActions ||| READ_SERIAL
    ∧ (frame m i).wire = m.wire := by
  rw [frame_eq, if_pos hc, poll_ready m _ text h]
  obtain ⟨h1, h2, h3, h4, h5, h6, _, _⟩ := settle_fields
    { m with
        drained := m.drained + 1
        serialActions := m.serialActions ||| READ_SERIAL
        passedSerialParams := m.serialActions ||| READ_SERIAL
        dataThread := Future.running Task.serialCommTasks
        launched := m.launched + 1 } text i
  exact ⟨h1, h2, h3, h4, h5, h6⟩

theorem frame_not_connected (m : Main) (i : FrameInput) (hc : i.connected = false) :
    frame m i = m := by
  rw [frame_eq, hc]
  rfl

theorem complete_running (m : Main) (reply : List Char) (task : Task)
    (h : m.dataThread = Future.running task) :
    (∃ text, (complete m reply).dataThread = Future.ready text)
    ∧ (complete m reply).launched = m.launched
    ∧ (complete m reply).completed = m.completed + 1
    ∧ (complete m reply).drained = m.drained := by
  unfold complete
  rw [h]
  cases task <;> exact ⟨⟨_, rfl⟩, rfl, rfl, rfl⟩

theorem complete_ready (m : Main) (reply text : List Char)
    (h : m.dataThread = Future.ready text) : complete m reply = m := by
  unfold complete
  rw [h]

theorem step_acquisitionOk (m : Main) (ev : Event) (h : m.acquisitionOk) :
    (step m ev).acquisitionOk := by
  unfold step
  by_cases hcr : m.crashed.isSome = true
  · rw [if_pos hcr]
    exact h
  · rw [if_neg hcr]
    obtain ⟨h1, h2, h3, h4⟩ := h
    cases ev with
    | frame i =>
      show (frame m i).acquisitionOk
      rcases hd : m.dataThread with task | text
      · obtain ⟨f1, f2, f3, f4, _, _⟩ := frame_running m i task hd
        rw [hd] at h4
        unfold Main.acquisitionOk
        rw [f1, f2, f3, f4, hd]
        exact ⟨h1, h2, h3, h4⟩
      · rw [hd] at h4
        by_cases hc : i.connected = true
        · obtain ⟨f1, f2, f3, f4, _, _⟩ := frame_ready m i text hc hd
          unfold Main.acquisitionOk
          rw [f1, f2, f3, f4]
          refine ⟨by omega, by omega, by omega, ?_⟩
          show m.completed = m.drained + 1
          omega
        · rw [frame_not_connected m i (by simpa using hc)]
          unfold Main.acquisitionOk
          rw [hd]
          exact ⟨h1, h2, h3, h4⟩
    | complete reply =>
      show (complete m reply).acquisitionOk
      rcases hd : m.dataThread with task | text
      · obtain ⟨⟨text, c1⟩, c2, c3, c4⟩ := complete_running m reply task hd
        rw [hd] at h4
        unfold Main.acquisitionOk
        rw [c1, c2, c3, c4]
        refine ⟨by omega, by omega, h3, ?_⟩
        show m.completed + 1 = m.launched
        omega
      · rw [complete_ready m reply text hd]
        exact ⟨h1, h2, h3, h4⟩

theorem run_acquisitionOk (evs : List Event) :
    ∀ m : Main, m.acquisitionOk → (run m evs).acquisitionOk := by
  induction evs with
  | nil => intro m h; exact h
  | cons ev evs ih =>
    intro m h
    exact ih (step m ev) (step_acquisitionOk m ev h)

/-- Only a connected frame that finds the result ready launches a cycle. -/
theorem step_launch (m : Main) (ev : Event) (h : (step m ev).launched ≠ m.launched) :
    ∃ i text, ev = Event.frame i ∧ i.connected = true ∧ m.crashed = none
      ∧ m.dataThread = Future.ready text
      ∧ (step m ev).launched = m.launched + 1 ∧ (step m ev).drained = m.drained + 1 := by
  unfold step at h ⊢
  by_cases hcr : m.crashed.isSome = true
  · rw [if_pos hcr] at h
    exact absurd rfl h
  · rw [if_neg hcr] at h ⊢
    have hnone : m.crashed = none := by simpa using hcr
    cases ev with
    | frame i =>
      rcases hd : m.dataThread with task | text
      · exact absurd (frame_running m i task hd).2.1 h
      · by_cases hc : i.connected = true
        · obtain ⟨_, f2, _, f4, _, _⟩ := frame_ready m i text hc hd
          exact ⟨i, text, rfl, hc, hnone, rfl, f2, f4⟩
        · have := frame_not_connected m i (by simpa using hc)
          exact absurd (congrArg Main.launched this) h
    | complete reply =>
      rcases hd : m.dataThread with task | text
      · exact absurd (complete_running m reply task hd).2.1 h
      · have := complete_ready m reply text hd
        exact absurd (congrArg Main.launched this) h

/-! ## Claims on the command dispatcher and the acquisition cycle -/

/-- C8: for every mask with the read intent set, `serialCommTasks` performs exactly:
a write of `r` if and only if `SEND_ENABLE` is set, then a write of `u` if and only if
`SEND_DISABLE` is set, then one read, and returns the text of that read; with both
intents set the operations are write `r`, write `u`, read. Every mask the main loop
hands over has the read intent set. -/
theorem serialCommTasks_trace (passedSerialParams : Nat) (wire : List Op) (reply : List Char)
    (hread : passedSerialParams &&& READ_SERIAL ≠ 0) :
    serialCommTasks passedSerialParams wire reply =
      (reply,
        wire ++ (if passedSerialParams &&& SEND_ENABLE ≠ 0 then [Op.write 'r'] else [])
          ++ (if passedSerialParams &&& SEND_DISABLE ≠ 0 then [Op.write 'u'] else [])
          ++ [Op.read])
    ∧ (passedSerialParams &&& SEND_ENABLE ≠ 0 → passedSerialParams &&& SEND_DISABLE ≠ 0 →
        serialCommTasks passedSerialParams wire reply =
          (reply, wire ++ [Op.write 'r', Op.write 'u', Op.read]))
    ∧ (∀ (m : Main) (i : FrameInput) (text : List Char), i.connected = true →
        m.dataThread = Future.ready text →
        (frame m i).passedSerialParams = m.serialActions ||| READ_SERIAL
        ∧ (frame m i).passedSerialParams &&& READ_SERIAL ≠ 0) := by
  have hmain : serialCommTasks passedSerialParams wire reply =
      (reply,
        wire ++ (if passedSerialParams &&& SEND_ENABLE ≠ 0 then [Op.write 'r'] else [])
          ++ (if passedSerialParams &&& SEND_DISABLE ≠ 0 then [Op.write 'u'] else [])
          ++ [Op.read]) := by
    unfold serialCommTasks payloadReleaseEnable payloadReleaseDisable GetSerialData
    by_cases h1 : passedSerialParams &&& SEND_ENABLE ≠ 0 <;>
      by_cases h2 : passedSerialParams &&& SEND_DISABLE ≠ 0 <;>
      simp only [h1, h2, hread, if_true, if_false, not_false_eq_true, ne_eq, List.append_nil]
  refine ⟨hmain, ?_, ?_⟩
  · intro h1 h2
    rw [hmain, if_pos h1, if_pos h2]
    simp
  · intro m i text hc hd
    have hp := (frame_ready m i text hc hd).2.2.2.2.1
    refine ⟨hp, ?_⟩
    rw [hp]
    exact or_and_two_pow_self m.serialActions 2

/-- Witness for C8: the mask 7, both intents and the read intent set. -/
theorem serialCommTasks_trace_witness :
    7 &&& READ_SERIAL ≠ 0
    ∧ serialCommTasks 7 [] "x".toList = ("x".toList, [Op.write 'r', Op.write 'u', Op.read]) :=
  ⟨by decide, (serialCommTasks_trace 7 [] "x".toList (by decide)).2.1 (by decide) (by decide)⟩

/-- C9: in every state the program reaches, exactly one acquisition cycle is in flight
or awaiting its drain (the counters satisfy `launched = drained + 1`, and the cycle is
in flight exactly while the future is not ready); and a step launches a cycle only if
it is a connected frame that found the previous result ready, which it drains in the
same step. -/
theorem one_cycle_in_flight (evs : List Event) :
    (run Main.init evs).acquisitionOk
    ∧ (run Main.init evs).inFlight + (run Main.init evs).awaitingDrain = 1
    ∧ ∀ ev, (step (run Main.init evs) ev).launched ≠ (run Main.init evs).launched →
        ∃ i text, ev = Event.frame i ∧ i.connected = true
          ∧ (run Main.init evs).dataThread = Future.ready text
          ∧ (step (run Main.init evs) ev).launched = (run Main.init evs).launched + 1
          ∧ (step (run Main.init evs) ev).drained = (run Main.init evs).drained + 1 := by
  have hinit : Main.init.acquisitionOk := by
    unfold Main.acquisitionOk
    exact ⟨by decide, by decide, by decide, rfl⟩
  have hok := run_acquisitionOk evs Main.init hinit
  refine ⟨hok, ?_, ?_⟩
  · obtain ⟨h1, h2, h3, _⟩ := hok
    unfold Main.inFlight Main.awaitingDrain
    omega
  · intro ev hev
    obtain ⟨i, text, h1, h2, _, h4, h5, h6⟩ := step_launch _ ev hev
    exact ⟨i, text, h1, h2, h4, h5, h6⟩

/-- C10 as stated fails: after one press of "Release Payload" and no further press,
the byte `r` is written in two acquisition cycles (and in every later one), and the
mask handed to the last cycle still contains the intent. -/
theorem pressOnce_repeats :
    (run Main.init pressOnce).wire =
      [Op.read, Op.read, Op.write 'r', Op.read, Op.write 'r', Op.read]
    ∧ (run Main.init pressOnce).passedSerialParams &&& SEND_ENABLE ≠ 0 := by
  decide

theorem step_serialActions (m : Main) (ev : Event) (b : Nat)
    (h : m.serialActions &&& 2 ^ b ≠ 0) : (step m ev).serialActions &&& 2 ^ b ≠ 0 := by
  unfold step
  by_cases hcr : m.crashed.isSome = true
  · rw [if_pos hcr]
    exact h
  · rw [if_neg hcr]
    cases ev with
    | frame i =>
      show (frame m i).serialActions &&& 2 ^ b ≠ 0
      rw [frame_eq]
      by_cases hc : i.connected = true
      · rw [if_pos hc]
        have hp : (poll m "nothin".toList).1.serialActions &&& 2 ^ b ≠ 0 := by
          rcases hd : m.dataThread with task | text
          · rw [poll_running m _ task hd]
            exact h
          · rw [poll_ready m _ text hd]
            exact or_and_two_pow_left _ _ _ h
        rcases (settle_fields (poll m "nothin".toList).1 (poll m "nothin".toList).2 i).2.2.2.2.2.2.2
          with hs | hs
        · rw [hs]
          exact hp
        · rw [hs]
          apply or_and_two_pow_left
          by_cases hr : i.releasePressed = true
          · rw [if_pos hr]
            exact or_and_two_pow_left _ _ _ hp
          · rw [if_neg hr]
            exact hp
      · rw [if_neg hc]
        exact h
    | complete reply =>
      show (complete m reply).serialActions &&& 2 ^ b ≠ 0
      unfold complete
      rcases hd : m.dataThread with task | text
      · cases task <;> exact h
      · exact h

theorem run_serialActions (evs : List Event) (b : Nat) :
    ∀ m : Main, m.serialActions &&& 2 ^ b ≠ 0 → (run m evs).serialActions &&& 2 ^ b ≠ 0 := by
  induction evs with
  | nil => intro m h; exact h
  | cons ev evs ih =>
    intro m h
    exact ih (step m ev) (step_serialActions m ev b h)

theorem complete_writes (p : Main) (reply : List Char) (hcr : p.crashed = none)
    (hd : p.dataThread = Future.running Task.serialCommTasks) :
    (p.passedSerialParams &&& SEND_ENABLE ≠ 0 →
      ∃ post, (step p (Event.complete reply)).wire = p.wire ++ [Op.write 'r'] ++ post)
    ∧ (p.passedSerialParams &&& SEND_DISABLE ≠ 0 →
      ∃ pre post, (step p (Event.complete reply)).wire = p.wire ++ pre ++ [Op.write 'u'] ++ post) := by
  have hstep : (step p (Event.complete reply)).wire =
      (serialCommTasks p.passedSerialParams p.wire reply).2 := by
    unfold step
    rw [hcr]
    show (complete p reply).wire = _
    unfold complete
    rw [hd]
  rw [hstep]
  unfold serialCommTasks payloadReleaseEnable payloadReleaseDisable GetSerialData
  constructor
  · intro h1
    by_cases h2 : p.passedSerialParams &&& SEND_DISABLE ≠ 0 <;>
      by_cases h3 : p.passedSerialParams &&& READ_SERIAL ≠ 0 <;>
      simp only [h1, h2, h3, if_true, if_false, not_false_eq_true, ne_eq]
    · exact ⟨[Op.write 'u', Op.read], by simp⟩
    · exact ⟨[Op.write 'u'], by simp⟩
    · exact ⟨[Op.read], by simp⟩
    · exact ⟨[], by simp⟩
  · intro h2
    by_cases h1 : p.passedSerialParams &&& SEND_ENABLE ≠ 0 <;>
      by_cases h3 : p.passedSerialParams &&& READ_SERIAL ≠ 0 <;>
      simp only [h1, h2, h3, if_true, if_false, not_false_eq_true, ne_eq]
    · exact ⟨[Op.write 'r'], [Op.read], by simp⟩
    · exact ⟨[Op.write 'r'], [], by simp⟩
    · exact ⟨[], [Op.read], by simp⟩
    · exact ⟨[], [], by simp⟩

/-- C10, amended: the intent mask is never cleared. Once `SEND_ENABLE` (or
`SEND_DISABLE`) is set in `serialActions` it is set in every later state, every later
hand-over passes a mask that contains it, and every cycle that runs with such a mask
writes the command byte (`r`, respectively `u`) again. -/
theorem intent_never_cleared (m : Main) (evs : List Event) (intent : Nat)
    (hi : intent = SEND_ENABLE ∨ intent = SEND_DISABLE)
    (hset : m.serialActions &&& intent ≠ 0) :
    (run m evs).serialActions &&& intent ≠ 0
    ∧ (∀ (i : FrameInput) (text : List Char), i.connected = true →
        (run m evs).dataThread = Future.ready text →
        (frame (run m evs) i).passedSerialParams &&& intent ≠ 0)
    ∧ (∀ (p : Main) (reply : List Char), p.crashed = none →
        p.dataThread = Future.running Task.serialCommTasks →
        p.passedSerialParams &&& intent ≠ 0 →
        ∃ pre post, (step p (Event.complete reply)).wire =
          p.wire ++ pre ++ [Op.write (if intent = SEND_ENABLE then 'r' else 'u')] ++ post) := by
  obtain ⟨b, hb⟩ : ∃ b, intent = 2 ^ b := by
    rcases hi with h | h
    · exact ⟨0, h⟩
    · exact ⟨1, h⟩
  have hrun : (run m evs).serialActions &&& intent ≠ 0 := by
    rw [hb] at hset ⊢
    exact run_serialActions evs b m hset
  refine ⟨hrun, ?_, ?_⟩
  · intro i text hc hd
    rw [(frame_ready (run m evs) i text hc hd).2.2.2.2.1]
    rw [hb] at hrun ⊢
    exact or_and_two_pow_left _ _ _ hrun
  · intro p reply hcr hd hp
    rcases hi with h | h
    · rw [h] at hp
      obtain ⟨post, hw⟩ := (complete_writes p reply hcr hd).1 hp
      refine ⟨[], post, ?_⟩
      rw [hw, if_pos h, List.append_nil]
    · rw [h] at hp
      obtain ⟨pre, post, hw⟩ := (complete_writes p reply hcr hd).2 hp
      refine ⟨pre, post, ?_⟩
      rw [hw, if_neg (by rw [h]; decide)]

/-- Witness for C10: from the state after the press of `pressOnce`'s second event, two
further cycles later the intent is still set. -/
theorem intent_never_cleared_witness :
    (run Main.init [Event.complete [], Event.frame pressFrame]).serialActions &&& SEND_ENABLE ≠ 0
    ∧ (run (run Main.init [Event.complete [], Event.frame pressFrame])
        [Event.complete [], Event.frame idleFrame, Event.complete [],
          Event.frame idleFrame]).serialActions &&& SEND_ENABLE ≠ 0 :=
  ⟨by decide,
   (intent_never_cleared (run Main.init [Event.complete [], Event.frame pressFrame])
      [Event.complete [], Event.frame idleFrame, Event.complete [], Event.frame idleFrame]
      SEND_ENABLE (Or.inl rfl) (by decide)).1⟩

/-! ## Claims on spans, the link, the state table and the substring ranges -/

theorem ite_AddPoint_Span (c : Prop) [Decidable c] (b : RollingBuffer) (t v : Int) :
    (if c then b.AddPoint t v else b).Span = b.Span := by
  split <;> rfl

theorem upTo_spans (m : Main) (s : List Char) (t : Int) (v : Nat → Int) (k : Nat) :
    (upTo m s t v k).spans = m.spans := by
  simp only [Main.spans, Main.chans, upTo, List.map, ite_AddPoint_Span]

theorem upTo_history (m : Main) (s : List Char) (t : Int) (v : Nat → Int) (k : Nat) :
    (upTo m s t v k).history = m.history := rfl

/-- The ingest code changes no `Span`, whether it returns or throws. -/
theorem ingest_spans (m r : Main) (s : List Char) (t : Int)
    (h : ingest m s t = .ok r ∨ ∃ e, ingest m s t = .error (e, r)) : r.spans = m.spans := by
  by_cases h13 : s.count ':' ≥ 13
  · rw [ingest_eq m s t h13] at h
    generalize readAt s = rd at h
    unfold outcomeOf at h
    rcases hf : firstThrowIn rd reads with _ | ⟨k, e⟩
    · rw [hf] at h
      rcases h with h | ⟨e, h⟩
      · simp only [Except.ok.injEq] at h
        subst h
        unfold logged
        cases m.logData
        · exact upTo_spans m s t _ 15
        · exact upTo_spans m s t _ 15
      · cases h
    · rw [hf] at h
      rcases h with h | ⟨e', h⟩
      · cases h
      · simp only [Except.error.injEq, Prod.mk.injEq] at h
        rw [← h.2]
        exact upTo_spans m s t _ k
  · rw [ingest_of_count_lt m s t (by omega)] at h
    rcases h with h | ⟨e, h⟩
    · simp only [Except.ok.injEq] at h
      rw [h]
    · cases h

/-- C11, evaluated on the code: after one connected frame that shows the table, the
channel `altitude` has `Span` 20 (the value of `history`) and the thirteen other
channels still have the `Span` 10 of their constructor: line 354 assigns `history` to
`altitude.Span` only. -/
theorem spans_after_first_frame :
    (run Main.init [Event.frame idleFrame]).spans =
      [10, 10, 10, 10, 10, 10, 10, 10, 10, 10, 10, 10, 10, 20]
    ∧ (run Main.init [Event.frame idleFrame]).altitude.Span = 20
    ∧ (run Main.init [Event.frame idleFrame]).xOrient.Span = 10
    ∧ (run Main.init [Event.frame idleFrame]).AccelerationMagnitude.Span = 10 := by
  decide

/-- C12: when the transport reports not connected, a frame changes nothing: the state
after it is the state before it, so no channel, text, mask or log entry changes, no
result is drained and no cycle is launched. -/
theorem frame_link_absent (m : Main) (i : FrameInput) (h : i.connected = false) :
    frame m i = m ∧ step m (Event.frame i) = m := by
  have hf := frame_not_connected m i h
  refine ⟨hf, ?_⟩
  unfold step
  by_cases hcr : m.crashed.isSome = true
  · rw [if_pos hcr]
  · rw [if_neg hcr]
    exact hf

/-- Witness for C12: a disconnected frame in which both buttons are pressed, with a
result waiting to be drained. -/
theorem frame_link_absent_witness :
    ({ pressFrame with connected := false, cancelPressed := true } : FrameInput).connected = false
    ∧ step (run Main.init [Event.complete accelFrame])
        (Event.frame { pressFrame with connected := false, cancelPressed := true })
        = run Main.init [Event.complete accelFrame] :=
  ⟨rfl, (frame_link_absent (run Main.init [Event.complete accelFrame])
    { pressFrame with connected := false, cancelPressed := true } rfl).2⟩

theorem land_two_pow_bne (n i : Nat) : (n &&& 2 ^ i != 0) = n.testBit i := by
  rw [Nat.and_two_pow]
  cases n.testBit i <;> simp

/-- C15: for every state byte the eight flags of the state table are decided
independently, high bit to low bit: `On Pad` is active iff bit 7 (0x80) is set,
`Launched` iff bit 6, `Apogee` iff bit 5, `Ascending` iff bit 4, `Descending` iff bit
3, `Drogue Deployed` iff bit 2, `Main Deployed` iff bit 1, `Landed` iff bit 0; and
every combination of the eight flags is shown by some 8-bit state. -/
theorem stateTable_flags (state : Nat) :
    stateTable state =
      [(state.testBit 7, "On Pad"), (state.testBit 6, "Launched"), (state.testBit 5, "Apogee"),
       (state.testBit 4, "Ascending"), (state.testBit 3, "Descending"),
       (state.testBit 2, "Drogue Deployed"), (state.testBit 1, "Main Deployed"),
       (state.testBit 0, "Landed")]
    ∧ ∀ b7 b6 b5 b4 b3 b2 b1 b0 : Bool,
        stateOfFlags b7 b6 b5 b4 b3 b2 b1 b0 < 256
        ∧ stateFlags (stateOfFlags b7 b6 b5 b4 b3 b2 b1 b0) = [b7, b6, b5, b4, b3, b2, b1, b0] := by
  constructor
  · unfold stateTable LinkedText
    have h7 := land_two_pow_bne state 7
    have h6 := land_two_pow_bne state 6
    have h5 := land_two_pow_bne state 5
    have h4 := land_two_pow_bne state 4
    have h3 := land_two_pow_bne state 3
    have h2 := land_two_pow_bne state 2
    have h1 := land_two_pow_bne state 1
    have h0 := land_two_pow_bne state 0
    norm_num at h7 h6 h5 h4 h3 h2 h1 h0
    norm_num
    exact ⟨h7, h6, h5, h4, h3, h2, h1, h0⟩
  · decide

theorem step_state (m : Main) (ev : Event) : (step m ev).state = m.state := by
  unfold step
  by_cases hcr : m.crashed.isSome = true
  · rw [if_pos hcr]
  · rw [if_neg hcr]
    cases ev with
    | frame i =>
      show (frame m i).state = m.state
      rw [frame_eq]
      by_cases hc : i.connected = true
      · rw [if_pos hc, (settle_fields _ _ i).2.2.2.2.2.2.1]
        rcases hd : m.dataThread with task | text
        · rw [poll_running m _ task hd]
        · rw [poll_ready m _ text hd]
      · rw [if_neg hc]
    | complete reply =>
      show (complete m reply).state = m.state
      unfold complete
      rcases hd : m.dataThread with task | text
      · cases task <;> rfl
      · rfl

theorem run_state (evs : List Event) : ∀ m : Main, (run m evs).state = m.state := by
  induction evs with
  | nil => intro m; rfl
  | cons ev evs ih =>
    intro m
    exact (ih (step m ev)).trans (step_state m ev)

/-- C17: the state byte is never written: in every state the program reaches, for
every sequence of frames and received texts, it is 0, and all eight flags of the state
table are inactive. -/
theorem state_always_zero (evs : List Event) :
    (run Main.init evs).state = 0
    ∧ stateFlags (run Main.init evs).state =
        [false, false, false, false, false, false, false, false] := by
  have h : (run Main.init evs).state = 0 := run_state evs Main.init
  refine ⟨h, ?_⟩
  rw [h]
  decide

/-- What the ingest code writes to the log: nothing when the frame is rejected, when a
read throws or when logging is disabled; otherwise the six phases `fmodf(t, Span)` (`t` as `float`) of
the orientation and acceleration channels (the `x` members of their last points). -/
theorem ingest_dataFile (m r : Main) (s : List Char) (t : Int) :
    (ingest m s t = .ok r →
      r.dataFile =
        if m.logData = true ∧ s.count ':' ≥ 13 then
          m.dataFile ++
            [fmodf (toFloat t) m.xOrient.Span, fmodf (toFloat t) m.yOrient.Span,
             fmodf (toFloat t) m.zOrient.Span, fmodf (toFloat t) m.xAccel.Span,
             fmodf (toFloat t) m.yAccel.Span, fmodf (toFloat t) m.zAccel.Span]
        else m.dataFile)
    ∧ (∀ e, ingest m s t = .error (e, r) → r.dataFile = m.dataFile) := by
  by_cases h13 : s.count ':' ≥ 13
  · rw [ingest_eq m s t h13]
    generalize readAt s = rd
    unfold outcomeOf
    rcases hf : firstThrowIn rd reads with _ | ⟨k, e⟩
    · constructor
      · intro h
        simp only [Except.ok.injEq] at h
        subst h
        unfold logged
        by_cases hl : m.logData = true
        · rw [if_pos hl, if_pos ⟨hl, h13⟩]
        · rw [if_neg hl, if_neg (fun hc => hl hc.1)]
          rfl
      · intro e h
        cases h
    · constructor
      · intro h
        cases h
      · intro e' h
        simp only [Except.error.injEq, Prod.mk.injEq] at h
        rw [← h.2]
        rfl
  · rw [ingest_of_count_lt m s t (by omega)]
    constructor
    · intro h
      simp only [Except.ok.injEq] at h
      rw [← h, if_neg (fun hc => h13 hc.2)]
    · intro e h
      cases h

set_option maxRecDepth 100000 in
/-- C14, evaluated on the code: with logging enabled, `accelFrame` is accepted at time
7; the orientation channels receive 1, 2, 3 and the acceleration channels 3, 4, 0, but
the six entries written to the log are all 7, the phase of the points, not the decoded
values. -/
theorem accelFrame_logged :
    ∃ m', ingest loggingInit accelFrame 7 = .ok m'
      ∧ m'.dataFile = [7, 7, 7, 7, 7, 7]
      ∧ [back m'.xOrient.Data, back m'.yOrient.Data, back m'.zOrient.Data,
         back m'.xAccel.Data, back m'.yAccel.Data, back m'.zAccel.Data]
        = [⟨7, 1⟩, ⟨7, 2⟩, ⟨7, 3⟩, ⟨7, 3⟩, ⟨7, 4⟩, ⟨7, 0⟩] :=
  ⟨logged loggingInit 7 (upTo loggingInit accelFrame 7 (valOf (readAt accelFrame)) 15),
    by decide, by decide, by decide⟩

theorem find_range (s : List Char) (c : Char) (pos : Int) :
    find s c pos = -1 ∨ (0 ≤ find s c pos ∧ find s c pos < s.length) := by
  unfold find
  by_cases hneg : pos < 0
  · rw [if_pos hneg]
    exact Or.inl rfl
  · rw [if_neg hneg]
    by_cases hi : (s.drop pos.toNat).indexOf c < (s.drop pos.toNat).length
    · rw [if_pos hi]
      right
      rw [List.length_drop] at hi
      omega
    · rw [if_neg hi]
      exact Or.inl rfl

theorem delimiterPositions_range (s : List Char) (k : Nat) :
    delimiterPositions s k = -1
      ∨ (0 ≤ delimiterPositions s k ∧ delimiterPositions s k < s.length) := by
  cases k with
  | zero => exact find_range s ':' 0
  | succ k => exact find_range s ':' _

theorem substr_ok (s : List Char) (pos n : Int) (h0 : 0 ≤ pos) (h1 : pos ≤ s.length) :
    ∃ str, substr s pos n = .ok str := by
  unfold substr
  rw [if_neg (by omega)]
  by_cases hn : n < 0
  · exact ⟨_, by rw [if_pos hn]⟩
  · exact ⟨_, by rw [if_neg hn]⟩

theorem readAt_eq_readText (s : List Char) (k : Nat) : readAt s k = readText s k >>= stoi := by
  unfold readAt readText
  split <;> rfl

theorem readText_ok (s : List Char) (k : Nat) : ∃ str, readText s k = .ok str := by
  unfold readText
  split
  · rcases delimiterPositions_range s 14 with h | h
    · exact substr_ok s _ _ (by omega) (by omega)
    · exact substr_ok s _ _ (by omega) (by omega)
  · rcases delimiterPositions_range s k with h | h
    · exact substr_ok s _ _ (by omega) (by omega)
    · exact substr_ok s _ _ (by omega) (by omega)

theorem readAt_eq_stoi (s : List Char) (k : Nat) :
    ∃ str, readText s k = .ok str ∧ readAt s k = stoi str := by
  obtain ⟨str, h⟩ := readText_ok s k
  refine ⟨str, h, ?_⟩
  rw [readAt_eq_readText, h]
  rfl

theorem outcomeOf_error (rd : Nat → Except Exn Int) (m m' : Main) (s : List Char) (t : Int)
    (e : Exn) (h : outcomeOf rd m s t = .error (e, m')) : ∃ k ∈ reads, rd k = .error e := by
  unfold outcomeOf at h
  rcases hf : firstThrowIn rd reads with _ | ⟨k, e0⟩
  · rw [hf] at h
    cases h
  · rw [hf] at h
    simp only [Except.error.injEq, Prod.mk.injEq] at h
    obtain ⟨pre, post, hr, hk, _⟩ := firstThrowIn_some rd reads k e0 hf
    exact ⟨k, (reads_before pre post k hr).1, by rw [hk, h.1]⟩

/-- C18: for every text with at least 13 separators every substring extraction of the
ingest code is in range. Each of the 16 separator positions is -1 or a valid index of
the text, so each start index `delimiterPositions[k] + 1` lies between 0 and the
length of the text; the reads use the array only at the indices 1..15; every `substr`
returns a text; and when `ingest` fails, the exception is the one `stoi` threw on the
text of one of its reads. -/
theorem ingest_substr_in_range (s : List Char) (h13 : s.count ':' ≥ 13) :
    (∀ k, k ≤ 15 → delimiterPositions s k = -1
        ∨ (0 ≤ delimiterPositions s k ∧ delimiterPositions s k < s.length))
    ∧ (∀ k, k ≤ 15 → 0 ≤ delimiterPositions s k + 1 ∧ delimiterPositions s k + 1 ≤ s.length)
    ∧ (∀ k ∈ reads, 1 ≤ k ∧ k + 1 ≤ 15
        ∧ ∃ str, readText s k = .ok str ∧ readAt s k = stoi str)
    ∧ (∀ (m m' : Main) (t : Int) (e : Exn), ingest m s t = .error (e, m') →
        ∃ k ∈ reads, ∃ str, readText s k = .ok str ∧ stoi str = .error e) := by
  refine ⟨fun k _ => delimiterPositions_range s k, ?_, ?_, ?_⟩
  · intro k _
    rcases delimiterPositions_range s k with h | h <;> omega
  · intro k hk
    have hb : 1 ≤ k ∧ k + 1 ≤ 15 := by
      revert k
      decide
    exact ⟨hb.1, hb.2, readAt_eq_stoi s k⟩
  · intro m m' t e h
    rw [ingest_eq m s t h13] at h
    obtain ⟨k, hk, he⟩ := outcomeOf_error (readAt s) m m' s t e h
    obtain ⟨str, hs, hr⟩ := readAt_eq_stoi s k
    exact ⟨k, hk, str, hs, by rw [← hr, he]⟩

/-- Witness for C18: `badFieldFrame`, whose ingest fails on the text `x:4:5:6:7` of
read 2. -/
theorem ingest_substr_in_range_witness :
    badFieldFrame.count ':' ≥ 13
    ∧ ∃ k ∈ reads, ∃ str, readText badFieldFrame k = .ok str
        ∧ stoi str = .error Exn.invalid_argument :=
  ⟨by decide,
   (ingest_substr_in_range badFieldFrame (by decide)).2.2.2 Main.init badFieldState 3
     Exn.invalid_argument (by decide)⟩

/-! ## The separator scan on a text given by its segments -/

theorem find_at_segment (s f x : List Char) (p : Nat) (hd : s.drop p = f ++ ':' :: x)
    (hf : ':' ∉ f) :
    find s ':' (p : Int) = ((p + f.length : Nat) : Int) ∧ s.drop (p + f.length + 1) = x := by
  constructor
  · have hidx : (f ++ ':' :: x).indexOf ':' = f.length := by
      rw [List.indexOf_append_of_not_mem hf, List.indexOf_cons_self]
      rfl
    unfold find
    rw [if_neg (by omega)]
    simp only [Int.toNat_ofNat, hd, hidx]
    rw [if_pos (by simp)]
    push_cast
    rfl
  · have h1 : s.drop (p + f.length + 1) = (s.drop p).drop (f.length + 1) := by
      rw [List.drop_drop]
      congr 1
    have h2 : f ++ ':' :: x = (f ++ [':']) ++ x := by simp
    rw [h1, hd, h2]
    exact List.drop_left' (by simp)

theorem find_none (s x : List Char) (p : Nat) (hd : s.drop p = x) (hx : ':' ∉ x) :
    find s ':' (p : Int) = -1 := by
  have hidx : x.indexOf ':' = x.length := List.indexOf_eq_length.mpr hx
  unfold find
  rw [if_neg (by omega)]
  simp only [Int.toNat_ofNat, hd, hidx]
  rw [if_neg (by simp)]

theorem joinSegs_drop_cons (segs : List (List Char)) (rest : List Char) (k : Nat)
    (hk : k < segs.length) :
    ∃ f, segs.drop k = f :: segs.drop (k + 1) ∧ f ∈ segs
      ∧ joinSegs (segs.drop k) rest = f ++ ':' :: joinSegs (segs.drop (k + 1)) rest := by
  have h := List.drop_eq_getElem_cons hk
  refine ⟨segs[k], h, List.getElem_mem _, ?_⟩
  rw [h]
  rfl

/-- The scan finds the separators that end the segments: position `k` of the array is
the index `p` of the separator after segment `k`, and the text after it is made of
the remaining segments. -/
theorem scan_segments (segs : List (List Char)) (rest : List Char)
    (hseg : ∀ f ∈ segs, ':' ∉ f) :
    ∀ k, k < segs.length →
      ∃ p : Nat, delimiterPositions (joinSegs segs rest) k = (p : Int) ∧ k ≤ p
        ∧ (joinSegs segs rest).drop (p + 1) = joinSegs (segs.drop (k + 1)) rest := by
  intro k
  induction k with
  | zero =>
    intro hk
    obtain ⟨f, _, hmem, hj⟩ := joinSegs_drop_cons segs rest 0 hk
    rw [List.drop_zero] at hj
    obtain ⟨h1, h2⟩ := find_at_segment (joinSegs segs rest) f _ 0 (by rw [List.drop_zero, hj])
      (hseg f hmem)
    refine ⟨0 + f.length, h1, Nat.zero_le _, h2⟩
  | succ k ih =>
    intro hk
    obtain ⟨p, hp, hkp, hdrop⟩ := ih (by omega)
    obtain ⟨f, _, hmem, hj⟩ := joinSegs_drop_cons segs rest (k + 1) hk
    obtain ⟨h1, h2⟩ := find_at_segment (joinSegs segs rest) f _ (p + 1) (by rw [hdrop, hj])
      (hseg f hmem)
    refine ⟨p + 1 + f.length, ?_, by omega, h2⟩
    show find (joinSegs segs rest) ':' (delimiterPositions (joinSegs segs rest) k + 1) = _
    rw [hp]
    exact h1

/-- Two consecutive positions of the scan, and the text between them. -/
theorem scan_step (segs : List (List Char)) (rest : List Char) (hseg : ∀ f ∈ segs, ':' ∉ f)
    (k : Nat) (hk : k + 1 < segs.length) :
    ∃ (p : Nat) (f y : List Char), segs.drop (k + 1) = f :: segs.drop (k + 2)
      ∧ delimiterPositions (joinSegs segs rest) k = (p : Int) ∧ k ≤ p
      ∧ delimiterPositions (joinSegs segs rest) (k + 1) = ((p + 1 + f.length : Nat) : Int)
      ∧ (joinSegs segs rest).drop (p + 1) = f ++ ':' :: y
      ∧ p + 1 ≤ (joinSegs segs rest).length := by
  obtain ⟨p, hp, hkp, hdrop⟩ := scan_segments segs rest hseg k (by omega)
  obtain ⟨f, hf, hmem, hj⟩ := joinSegs_drop_cons segs rest (k + 1) hk
  obtain ⟨h1, _⟩ := find_at_segment (joinSegs segs rest) f _ (p + 1) (by rw [hdrop, hj])
    (hseg f hmem)
  refine ⟨p, f, _, hf, hp, hkp, ?_, by rw [hdrop, hj], ?_⟩
  · show find (joinSegs segs rest) ':' (delimiterPositions (joinSegs segs rest) k + 1) = _
    rw [hp]
    exact h1
  · have hlen := congrArg List.length (hdrop.trans hj)
    rw [List.length_drop] at hlen
    simp only [List.length_append, List.length_cons] at hlen
    omega

theorem take_segment (f x : List Char) (n : Nat) (h : f.length + 1 ≤ n) :
    ∃ y, (f ++ ':' :: x).take n = f ++ ':' :: y := by
  refine ⟨x.take (n - (f.length + 1)), ?_⟩
  have h2 : f ++ ':' :: x = (f ++ [':']) ++ x := by simp
  have h3 : (f ++ [':']).length = f.length + 1 := by simp
  rw [h2, List.take_append_eq_append_take, h3, List.take_of_length_le (by omega)]
  simp

/-- The text of read `k` (for `k` from 1 to 12) starts with segment `k + 1` and its
separator. -/
theorem readText_segment (segs : List (List Char)) (rest : List Char)
    (hseg : ∀ f ∈ segs, ':' ∉ f) (k : Nat) (hk1 : 1 ≤ k) (hk14 : k ≠ 14)
    (hk : k + 1 < segs.length) :
    ∃ f y, segs.drop (k + 1) = f :: segs.drop (k + 2)
      ∧ readText (joinSegs segs rest) k = .ok (f ++ ':' :: y) := by
  obtain ⟨p, f, x, hf, hp, hkp, hp1, hdrop, hlen⟩ := scan_step segs rest hseg k hk
  obtain ⟨y, hy⟩ := take_segment f x (p + f.length) (by omega)
  refine ⟨f, y, hf, ?_⟩
  unfold readText
  rw [if_neg hk14, hp, hp1]
  unfold substr
  rw [if_neg (by omega), if_neg (by omega)]
  have e1 : ((p : Int) + 1).toNat = p + 1 := by omega
  have e2 : (((p + 1 + f.length : Nat) : Int) - 1).toNat = p + f.length := by omega
  rw [e1, e2, hdrop, hy]

/-- The text of the altitude read starts with segment 15 and its separator. -/
theorem readText_altitude (segs : List (List Char)) (rest : List Char)
    (hseg : ∀ f ∈ segs, ':' ∉ f) (hk : 15 < segs.length) :
    ∃ f y, segs.drop 15 = f :: segs.drop 16
      ∧ readText (joinSegs segs rest) 14 = .ok (f ++ ':' :: y) := by
  obtain ⟨p, f, x, hf, hp, hkp, hp1, hdrop, hlen⟩ := scan_step segs rest hseg 14 hk
  obtain ⟨y, hy⟩ := take_segment f x (p + 1 + f.length) (by omega)
  refine ⟨f, y, hf, ?_⟩
  unfold readText
  rw [if_pos rfl, hp, hp1]
  unfold substr
  rw [if_neg (by omega), if_neg (by omega)]
  have e1 : ((p : Int) + 1).toNat = p + 1 := by omega
  have e2 : (((p + 1 + f.length : Nat) : Int)).toNat = p + 1 + f.length := by omega
  rw [e1, e2, hdrop, hy]

theorem dropWhile_append_stop (p : Char → Bool) (l x : List Char) (a : Char) (ha : p a = false) :
    (l ++ a :: x).dropWhile p = l.dropWhile p ++ a :: x := by
  induction l with
  | nil => simp [List.dropWhile, ha]
  | cons c l ih =>
    by_cases hc : p c = true
    · simp [List.dropWhile, hc, ih]
    · simp [List.dropWhile, hc]

theorem takeWhile_append_stop (p : Char → Bool) (l x : List Char) (a : Char) (ha : p a = false) :
    (l ++ a :: x).takeWhile p = l.takeWhile p := by
  induction l with
  | nil => simp [List.takeWhile, ha]
  | cons c l ih =>
    by_cases hc : p c = true
    · simp [List.takeWhile, hc, ih]
    · simp [List.takeWhile, hc]

/-- The function `stoi` stops at a separator: what follows it does not matter. -/
theorem stoi_colon (f x : List Char) : stoi (f ++ ':' :: x) = stoi f := by
  unfold stoi
  rw [dropWhile_append_stop isspace f x ':' (by decide)]
  rcases hg : f.dropWhile isspace with _ | ⟨c, g⟩
  · have h3 : List.takeWhile isdigit (':' :: x) = [] := by
      simp [List.takeWhile, show isdigit ':' = false by decide]
    simp [h3]
  · simp only [List.cons_append, List.head?_cons, Option.some.injEq, List.tail_cons]
    by_cases hs : c = '-' ∨ c = '+'
    · simp only [hs, if_true]
      rw [takeWhile_append_stop isdigit g x ':' (by decide)]
    · simp only [hs, if_false]
      rw [← List.cons_append, takeWhile_append_stop isdigit (c :: g) x ':' (by decide)]

theorem digitsOnly_spec (ds : List Char) (h : digitsOnly ds = true) :
    ds ≠ [] ∧ ∀ c ∈ ds, isdigit c = true := by
  unfold digitsOnly at h
  simp only [Bool.and_eq_true, List.all_eq_true] at h
  refine ⟨?_, h.2⟩
  intro hnil
  rw [hnil] at h
  simp at h

/-- A decimal integer in the range of `int` is read by `stoi` as its value. -/
theorem stoi_decimal (f : List Char) (hdec : isDecimal f = true)
    (hfit : fitsInt (decimalVal f) = true) : stoi f = .ok (decimalVal f) := by
  unfold fitsInt at hfit
  simp only [Bool.and_eq_true, decide_eq_true_eq] at hfit
  unfold isDecimal at hdec
  unfold decimalVal at hfit ⊢
  by_cases hm : f.head? = some '-'
  · rw [if_pos hm] at hdec hfit ⊢
    obtain ⟨hne, hd⟩ := digitsOnly_spec f.tail hdec
    obtain ⟨c, g, rfl⟩ : ∃ c g, f = c :: g := by
      cases f with
      | nil => simp at hm
      | cons c g => exact ⟨c, g, rfl⟩
    simp only [List.head?_cons, Option.some.injEq] at hm
    subst hm
    simp only [List.tail_cons] at hne hd hfit ⊢
    have htake : g.takeWhile isdigit = g := List.takeWhile_eq_self_iff.mpr hd
    obtain ⟨d, g2, rfl⟩ := List.exists_cons_of_ne_nil hne
    unfold stoi
    have hsp : isspace '-' = false := by decide
    simp only [List.dropWhile, hsp, List.head?_cons, true_or, if_true, List.tail_cons, htake,
      List.isEmpty_cons, Bool.false_eq_true, if_false, decide_True]
    rw [if_neg (by omega)]
  · rw [if_neg hm] at hdec hfit ⊢
    obtain ⟨hne, hd⟩ := digitsOnly_spec f hdec
    have h := stoi_digits_append f [] hne hd (by simp) (by omega)
    rw [List.append_nil] at h
    exact h

/-! ## Claims on the altitude read -/

theorem reads_cases : ∀ k ∈ reads, (1 ≤ k ∧ k ≤ 12) ∨ k = 14 := by
  decide

theorem valOf_ok (rd : Nat → Except Exn Int) (k : Nat) (v : Int) (h : rd k = .ok v) :
    valOf rd k = v := by
  rw [valOf, h]

theorem count_joinSegs (segs : List (List Char)) (rest : List Char)
    (hseg : ∀ f ∈ segs, ':' ∉ f) :
    (joinSegs segs rest).count ':' = segs.length + rest.count ':' := by
  induction segs with
  | nil => simp [joinSegs]
  | cons f fs ih =>
    have hf : f.count ':' = 0 := List.count_eq_zero.mpr (hseg f (List.mem_cons_self _ _))
    have ih2 := ih (fun g hg => hseg g (List.mem_cons_of_mem _ hg))
    simp only [joinSegs, List.count_append, List.count_cons_self, hf, ih2, List.length_cons]
    omega

theorem getD_of_drop (segs : List (List Char)) (k : Nat) (f : List Char) (more : List (List Char))
    (h : segs.drop k = f :: more) : segs.getD k [] = f := by
  have h1 : (segs.drop k)[0]? = some f := by rw [h]; simp
  rw [List.getElem?_drop] at h1
  rw [List.getD_eq_getElem?_getD]
  simp only [Nat.add_zero] at h1
  rw [h1]
  rfl

/-- Reads 1 to 12 on a text given by its segments: read `k` is `stoi` of segment
`k + 1`. -/
theorem readAt_segment (segs : List (List Char)) (rest : List Char)
    (hseg : ∀ f ∈ segs, ':' ∉ f) (k : Nat) (hk1 : 1 ≤ k) (hk14 : k ≠ 14)
    (hk : k + 1 < segs.length) :
    readAt (joinSegs segs rest) k = stoi (segs.getD (k + 1) []) := by
  obtain ⟨f, y, hf, ht⟩ := readText_segment segs rest hseg k hk1 hk14 hk
  rw [readAt_eq_readText, ht, getD_of_drop segs (k + 1) f _ hf]
  exact stoi_colon f y

/-- The altitude read on a text with at least 16 segments is `stoi` of segment 15. -/
theorem readAt_altitude (segs : List (List Char)) (rest : List Char)
    (hseg : ∀ f ∈ segs, ':' ∉ f) (hk : 15 < segs.length) :
    readAt (joinSegs segs rest) 14 = stoi (segs.getD 15 []) := by
  obtain ⟨f, y, hf, ht⟩ := readText_altitude segs rest hseg hk
  rw [readAt_eq_readText, ht, getD_of_drop segs 15 f _ hf]
  exact stoi_colon f y

theorem logged_chans (m m2 : Main) (t : Int) : (logged m t m2).chans = m2.chans := by
  unfold logged
  cases m.logData <;> rfl

theorem upTo_chans_done (m : Main) (s : List Char) (t : Int) (v : Nat → Int) :
    (upTo m s t v 15).chans = addFirst t (allVals m t v) m.chans := rfl

theorem getD_set_ne (segs : List (List Char)) (i k : Nat) (g : List Char) (h : i ≠ k) :
    (segs.set i g).getD k [] = segs.getD k [] := by
  rw [List.getD_eq_getElem?_getD, List.getD_eq_getElem?_getD, List.getElem?_set_ne h]

/-- The outcome of `ingest` on a frame of 16 segments whose read segments are decimal
integers in `int` range: every read channel receives the `float` of its segment. -/
theorem ingest_sixteen (m : Main) (t : Int) (segs : List (List Char))
    (rest : List Char) (hlen : segs.length = 16) (hseg : ∀ f ∈ segs, ':' ∉ f)
    (hdec : ∀ k ∈ 15 :: readSegs,
      isDecimal (segs.getD k []) = true ∧ fitsInt (decimalVal (segs.getD k [])) = true) :
    ∃ m', ingest m (joinSegs segs rest) t = .ok m'
      ∧ m'.altitude = m.altitude.AddPoint (toFloat t) (toFloat (decimalVal (segs.getD 15 [])))
      ∧ m'.chans = addFirst t
          [toFloat (decimalVal (segs.getD 2 [])), toFloat (decimalVal (segs.getD 3 [])),
           toFloat (decimalVal (segs.getD 4 [])), toFloat (decimalVal (segs.getD 5 [])),
           toFloat (decimalVal (segs.getD 6 [])), toFloat (decimalVal (segs.getD 7 [])),
           toFloat (decimalVal (segs.getD 8 [])), toFloat (decimalVal (segs.getD 9 [])),
           toFloat (decimalVal (segs.getD 10 [])), phaseMag m t,
           toFloat (decimalVal (segs.getD 11 [])), toFloat (decimalVal (segs.getD 12 [])),
           toFloat (decimalVal (segs.getD 13 [])), toFloat (decimalVal (segs.getD 15 []))]
          m.chans := by
  have h13 : (joinSegs segs rest).count ':' ≥ 13 := by
    rw [count_joinSegs segs rest hseg]
    omega
  have hread : ∀ k, 1 ≤ k → k ≤ 12 →
      readAt (joinSegs segs rest) k = .ok (decimalVal (segs.getD (k + 1) [])) := by
    intro k h1 h2
    have hmem : k + 1 ∈ 15 :: readSegs := by
      have : k + 1 ∈ readSegs := by
        unfold readSegs
        interval_cases k <;> decide
      exact List.mem_cons_of_mem _ this
    rw [readAt_segment segs rest hseg k h1 (by omega) (by omega)]
    exact stoi_decimal _ (hdec _ hmem).1 (hdec _ hmem).2
  have halt : readAt (joinSegs segs rest) 14 = .ok (decimalVal (segs.getD 15 [])) := by
    rw [readAt_altitude segs rest hseg (by omega)]
    exact stoi_decimal _ (hdec 15 (List.mem_cons_self _ _)).1 (hdec 15 (List.mem_cons_self _ _)).2
  have hall : ∀ k ∈ reads, ∃ v, readAt (joinSegs segs rest) k = .ok v := by
    intro k hk
    rcases reads_cases k hk with ⟨h1, h2⟩ | rfl
    · exact ⟨_, hread k h1 h2⟩
    · exact ⟨_, halt⟩
  have hv : allVals m t (valOf (readAt (joinSegs segs rest))) =
      [toFloat (decimalVal (segs.getD 2 [])), toFloat (decimalVal (segs.getD 3 [])),
       toFloat (decimalVal (segs.getD 4 [])), toFloat (decimalVal (segs.getD 5 [])),
       toFloat (decimalVal (segs.getD 6 [])), toFloat (decimalVal (segs.getD 7 [])),
       toFloat (decimalVal (segs.getD 8 [])), toFloat (decimalVal (segs.getD 9 [])),
       toFloat (decimalVal (segs.getD 10 [])), phaseMag m t,
       toFloat (decimalVal (segs.getD 11 [])), toFloat (decimalVal (segs.getD 12 [])),
       toFloat (decimalVal (segs.getD 13 [])), toFloat (decimalVal (segs.getD 15 []))] := by
    unfold allVals
    rw [valOf_ok _ 1 _ (hread 1 (by omega) (by omega)),
      valOf_ok _ 2 _ (hread 2 (by omega) (by omega)),
      valOf_ok _ 3 _ (hread 3 (by omega) (by omega)),
      valOf_ok _ 4 _ (hread 4 (by omega) (by omega)),
      valOf_ok _ 5 _ (hread 5 (by omega) (by omega)),
      valOf_ok _ 6 _ (hread 6 (by omega) (by omega)),
      valOf_ok _ 7 _ (hread 7 (by omega) (by omega)),
      valOf_ok _ 8 _ (hread 8 (by omega) (by omega)),
      valOf_ok _ 9 _ (hread 9 (by omega) (by omega)),
      valOf_ok _ 10 _ (hread 10 (by omega) (by omega)),
      valOf_ok _ 11 _ (hread 11 (by omega) (by omega)),
      valOf_ok _ 12 _ (hread 12 (by omega) (by omega)),
      valOf_ok _ 14 _ halt]
  refine ⟨logged m t (upTo m (joinSegs segs rest) t (valOf (readAt (joinSegs segs rest))) 15),
    ?_, ?_, ?_⟩
  · rw [ingest_eq m _ t h13]
    exact outcomeOf_done (readAt (joinSegs segs rest)) m _ t hall
  · rw [← valOf_ok _ 14 _ halt]
    generalize valOf (readAt (joinSegs segs rest)) = v
    unfold logged
    cases m.logData <;> rfl
  · rw [logged_chans, upTo_chans_done, hv]

/-- C13 as stated fails, in two ways. All fields of `bigAltitudeFrame` (16 separators)
are decimal integers, but the one between the 15th and 16th separators does not fit an
`int`: `stoi` throws `out_of_range` and nothing is appended to the altitude channel.
The altitude field 16777217 of `roundedAltitudeFrame` fits an `int` but not a `float`:
the value appended is 16777216. -/
theorem bigAltitude_rejected :
    bigAltitudeFrame.count ':' = 16
    ∧ joinSegs bigAltitudeSegs [] = bigAltitudeFrame
    ∧ (∀ f ∈ bigAltitudeSegs.tail, isDecimal f = true)
    ∧ ingest Main.init bigAltitudeFrame 0 = .error (Exn.out_of_range, bigAltitudeState)
    ∧ bigAltitudeState.altitude = Main.init.altitude
    ∧ roundedAltitudeFrame.count ':' = 16
    ∧ ingest Main.init roundedAltitudeFrame 0 = .ok roundedAltitudeState
    ∧ back roundedAltitudeState.altitude.Data = ⟨0, 16777216⟩ := by
  decide

/-- C13, amended: for a frame with at least 16 separators (16 segments `segs`, then
any text) in which the segments the code reads are decimal integers in the range of a
32-bit `int`, the ingest succeeds and the value appended to the altitude channel is
the integer between the 15th and 16th separators (segment 15) converted to `float`:
the integer itself when its absolute value is below `2^24`. The other read channels
receive the `float` of their segments and the derived channel a value `mag`. The
segment between the 14th and 15th separators (segment 14) is not read and influences
no channel: with any other text in its place all channels end up the same. -/
theorem altitude_from_segment_15 (m : Main) (t : Int) (segs : List (List Char))
    (rest : List Char) (hlen : segs.length = 16) (hseg : ∀ f ∈ segs, ':' ∉ f)
    (hdec : ∀ k ∈ 15 :: readSegs,
      isDecimal (segs.getD k []) = true ∧ fitsInt (decimalVal (segs.getD k [])) = true) :
    ∃ m' mag, ingest m (joinSegs segs rest) t = .ok m'
      ∧ m'.altitude = m.altitude.AddPoint (toFloat t) (toFloat (decimalVal (segs.getD 15 [])))
      ∧ ((decimalVal (segs.getD 15 [])).natAbs < 16777216 →
          toFloat (decimalVal (segs.getD 15 [])) = decimalVal (segs.getD 15 []))
      ∧ m'.chans = addFirst t
          [toFloat (decimalVal (segs.getD 2 [])), toFloat (decimalVal (segs.getD 3 [])),
           toFloat (decimalVal (segs.getD 4 [])), toFloat (decimalVal (segs.getD 5 [])),
           toFloat (decimalVal (segs.getD 6 [])), toFloat (decimalVal (segs.getD 7 [])),
           toFloat (decimalVal (segs.getD 8 [])), toFloat (decimalVal (segs.getD 9 [])),
           toFloat (decimalVal (segs.getD 10 [])), mag,
           toFloat (decimalVal (segs.getD 11 [])), toFloat (decimalVal (segs.getD 12 [])),
           toFloat (decimalVal (segs.getD 13 [])), toFloat (decimalVal (segs.getD 15 []))]
          m.chans
      ∧ ∀ gap : List Char, ':' ∉ gap →
          ∃ m2, ingest m (joinSegs (segs.set 14 gap) rest) t = .ok m2 ∧ m2.chans = m'.chans := by
  obtain ⟨m', h1, h2, h3⟩ := ingest_sixteen m t segs rest hlen hseg hdec
  refine ⟨m', phaseMag m t, h1, h2, toFloat_exact _, h3, ?_⟩
  intro gap hgap
  have hne : ∀ k ∈ 15 :: readSegs, 14 ≠ k := by decide
  have hseg2 : ∀ f ∈ segs.set 14 gap, ':' ∉ f := by
    intro f hf
    rcases List.mem_or_eq_of_mem_set hf with hf | hf
    · exact hseg f hf
    · rw [hf]
      exact hgap
  have hdec2 : ∀ k ∈ 15 :: readSegs,
      isDecimal ((segs.set 14 gap).getD k []) = true
        ∧ fitsInt (decimalVal ((segs.set 14 gap).getD k [])) = true := by
    intro k hk
    rw [getD_set_ne segs 14 k gap (hne k hk)]
    exact hdec k hk
  obtain ⟨m2, g1, _, g3⟩ := ingest_sixteen m t (segs.set 14 gap) rest
    (by rw [List.length_set]; exact hlen) hseg2 hdec2
  refine ⟨m2, g1, ?_⟩
  rw [g3, h3]
  simp only [getD_set_ne segs 14 _ gap (show (14 : Nat) ≠ 2 by decide),
    getD_set_ne segs 14 _ gap (show (14 : Nat) ≠ 3 by decide),
    getD_set_ne segs 14 _ gap (show (14 : Nat) ≠ 4 by decide),
    getD_set_ne segs 14 _ gap (show (14 : Nat) ≠ 5 by decide),
    getD_set_ne segs 14 _ gap (show (14 : Nat) ≠ 6 by decide),
    getD_set_ne segs 14 _ gap (show (14 : Nat) ≠ 7 by decide),
    getD_set_ne segs 14 _ gap (show (14 : Nat) ≠ 8 by decide),
    getD_set_ne segs 14 _ gap (show (14 : Nat) ≠ 9 by decide),
    getD_set_ne segs 14 _ gap (show (14 : Nat) ≠ 10 by decide),
    getD_set_ne segs 14 _ gap (show (14 : Nat) ≠ 11 by decide),
    getD_set_ne segs 14 _ gap (show (14 : Nat) ≠ 12 by decide),
    getD_set_ne segs 14 _ gap (show (14 : Nat) ≠ 13 by decide),
    getD_set_ne segs 14 _ gap (show (14 : Nat) ≠ 15 by decide)]

/-- Witness for C13: the frame `Data:0:1:...:14:` followed by any text, at time 3; the
altitude channel receives 14, also when the gap field 13 is replaced by `gap`. -/
theorem altitude_from_segment_15_witness :
    fullSegs.length = 16 ∧ (∀ f ∈ fullSegs, ':' ∉ f)
    ∧ ∃ m' mag, ingest Main.init (joinSegs fullSegs "tail".toList) 3 = .ok m'
        ∧ m'.altitude = Main.init.altitude.AddPoint (toFloat 3)
            (toFloat (decimalVal (fullSegs.getD 15 [])))
        ∧ ((decimalVal (fullSegs.getD 15 [])).natAbs < 16777216 →
            toFloat (decimalVal (fullSegs.getD 15 [])) = decimalVal (fullSegs.getD 15 []))
        ∧ m'.chans = addFirst 3
            [toFloat (decimalVal (fullSegs.getD 2 [])), toFloat (decimalVal (fullSegs.getD 3 [])),
             toFloat (decimalVal (fullSegs.getD 4 [])), toFloat (decimalVal (fullSegs.getD 5 [])),
             toFloat (decimalVal (fullSegs.getD 6 [])), toFloat (decimalVal (fullSegs.getD 7 [])),
             toFloat (decimalVal (fullSegs.getD 8 [])), toFloat (decimalVal (fullSegs.getD 9 [])),
             toFloat (decimalVal (fullSegs.getD 10 [])), mag,
             toFloat (decimalVal (fullSegs.getD 11 [])),
             toFloat (decimalVal (fullSegs.getD 12 [])),
             toFloat (decimalVal (fullSegs.getD 13 [])),
             toFloat (decimalVal (fullSegs.getD 15 []))]
            Main.init.chans
        ∧ ∀ gap : List Char, ':' ∉ gap →
            ∃ m2, ingest Main.init (joinSegs (fullSegs.set 14 gap) "tail".toList) 3 = .ok m2
              ∧ m2.chans = m'.chans :=
  ⟨by decide, by decide,
   altitude_from_segment_15 Main.init 3 fullSegs "tail".toList (by decide) (by decide)
      (by decide)⟩

/-- On a text with exactly 14 separators the scan runs off the end and restarts:
position 14 is -1, position 15 equals position 0, and the altitude read gets the text
before the first separator. -/
theorem scan_wraps (segs : List (List Char)) (rest : List Char) (hlen : segs.length = 14)
    (hseg : ∀ f ∈ segs, ':' ∉ f) (hrest : ':' ∉ rest) :
    delimiterPositions (joinSegs segs rest) 14 = -1
    ∧ delimiterPositions (joinSegs segs rest) 15 = delimiterPositions (joinSegs segs rest) 0
    ∧ readText (joinSegs segs rest) 14 = .ok (segs.getD 0 []) := by
  have h14 : delimiterPositions (joinSegs segs rest) 14 = -1 := by
    obtain ⟨p, hp, _, hdrop⟩ := scan_segments segs rest hseg 13 (by omega)
    have hnil : segs.drop 14 = [] := List.drop_eq_nil_of_le (by omega)
    rw [hnil] at hdrop
    show find (joinSegs segs rest) ':' (delimiterPositions (joinSegs segs rest) 13 + 1) = -1
    rw [hp]
    exact find_none (joinSegs segs rest) rest (p + 1) hdrop hrest
  have h15 : delimiterPositions (joinSegs segs rest) 15
      = delimiterPositions (joinSegs segs rest) 0 := by
    show find (joinSegs segs rest) ':' (delimiterPositions (joinSegs segs rest) 14 + 1) = _
    rw [h14]
    rfl
  refine ⟨h14, h15, ?_⟩
  obtain ⟨f, hf, hmem, hj⟩ := joinSegs_drop_cons segs rest 0 (by omega)
  rw [List.drop_zero] at hj hf
  obtain ⟨h0, _⟩ := find_at_segment (joinSegs segs rest) f _ 0 (by rw [List.drop_zero, hj])
    (hseg f hmem)
  have hd0 : delimiterPositions (joinSegs segs rest) 0 = ((0 + f.length : Nat) : Int) := h0
  have hget : segs.getD 0 [] = f := getD_of_drop segs 0 f _ (by rw [List.drop_zero]; exact hf)
  unfold readText
  rw [if_pos rfl, h15, h14, hd0, hget]
  unfold substr
  rw [if_neg (by omega), if_neg (by omega)]
  have e1 : ((-1 : Int) + 1).toNat = 0 := by decide
  have e2 : (((0 + f.length : Nat) : Int)).toNat = f.length := by omega
  rw [e1, e2, List.drop_zero, hj, List.take_left]

/-- C16 as stated fails: `tagFrame` has exactly 14 separators and the leading tag `7x`,
which is not an integer, yet the altitude read succeeds and appends 7. -/
theorem tagFrame_accepted :
    tagFrame.count ':' = 14
    ∧ isDecimal "7x".toList = false
    ∧ ingest Main.init tagFrame 0 = .ok tagState
    ∧ back tagState.altitude.Data = ⟨0, 7⟩ := by
  decide

/-- C16, amended: on a frame with exactly 14 separators (14 segments, then a text
without separator) the scan runs off the end (position 14 of the array is -1) and
restarts from index 0 (position 15 equals position 0), so the altitude read is `stoi`
of the text before the first separator. When `stoi` rejects that tag (as for `Data`)
the altitude read throws; when the twelve segments read before it are decimal integers
in the range of `int`, this happens after the thirteen other channels have been
appended to (the read channels with the `float` of their segments, the derived channel
with a value `mag`), and the altitude channel is unchanged. -/
theorem short_frame_altitude (m : Main) (t : Int) (segs : List (List Char))
    (rest : List Char) (hlen : segs.length = 14) (hseg : ∀ f ∈ segs, ':' ∉ f)
    (hrest : ':' ∉ rest) :
    delimiterPositions (joinSegs segs rest) 14 = -1
    ∧ delimiterPositions (joinSegs segs rest) 15 = delimiterPositions (joinSegs segs rest) 0
    ∧ readText (joinSegs segs rest) 14 = .ok (segs.getD 0 [])
    ∧ readAt (joinSegs segs rest) 14 = stoi (segs.getD 0 [])
    ∧ (∀ e, stoi (segs.getD 0 []) = .error e →
        (∀ k ∈ readSegs,
          isDecimal (segs.getD k []) = true ∧ fitsInt (decimalVal (segs.getD k [])) = true) →
        ∃ m' mag, ingest m (joinSegs segs rest) t = .error (e, m')
          ∧ m'.altitude = m.altitude
          ∧ m'.chans = addFirst t
              [toFloat (decimalVal (segs.getD 2 [])), toFloat (decimalVal (segs.getD 3 [])),
               toFloat (decimalVal (segs.getD 4 [])), toFloat (decimalVal (segs.getD 5 [])),
               toFloat (decimalVal (segs.getD 6 [])), toFloat (decimalVal (segs.getD 7 [])),
               toFloat (decimalVal (segs.getD 8 [])), toFloat (decimalVal (segs.getD 9 [])),
               toFloat (decimalVal (segs.getD 10 [])), mag,
               toFloat (decimalVal (segs.getD 11 [])), toFloat (decimalVal (segs.getD 12 [])),
               toFloat (decimalVal (segs.getD 13 []))] m.chans) := by
  obtain ⟨h14, h15, htext⟩ := scan_wraps segs rest hlen hseg hrest
  have halt : readAt (joinSegs segs rest) 14 = stoi (segs.getD 0 []) := by
    rw [readAt_eq_readText, htext]
    rfl
  refine ⟨h14, h15, htext, halt, ?_⟩
  intro e he hdec
  have h13 : (joinSegs segs rest).count ':' ≥ 13 := by
    rw [count_joinSegs segs rest hseg]
    omega
  have hread : ∀ k, 1 ≤ k → k ≤ 12 →
      readAt (joinSegs segs rest) k = .ok (decimalVal (segs.getD (k + 1) [])) := by
    intro k h1 h2
    have hmem : k + 1 ∈ readSegs := by
      unfold readSegs
      interval_cases k <;> decide
    rw [readAt_segment segs rest hseg k h1 (by omega) (by omega)]
    exact stoi_decimal _ (hdec _ hmem).1 (hdec _ hmem).2
  obtain ⟨k, e0, hk, hke, hbefore, hout⟩ :=
    outcomeOf_throw (readAt (joinSegs segs rest)) m (joinSegs segs rest) t
      ⟨14, by decide, e, by rw [halt, he]⟩
  have hk14 : k = 14 := by
    rcases reads_cases k hk with ⟨h1, h2⟩ | h
    · rw [hread k h1 h2] at hke
      cases hke
    · exact h
  subst hk14
  have he0 : e0 = e := by
    rw [halt, he] at hke
    simp only [Except.error.injEq] at hke
    exact hke.symm
  subst he0
  refine ⟨upTo m (joinSegs segs rest) t (valOf (readAt (joinSegs segs rest))) 14, phaseMag m t,
    ?_, rfl, ?_⟩
  · rw [ingest_eq m _ t h13, hout]
  · rw [chans_upTo m _ t _ 14 (by decide)]
    have hv : (allVals m t (valOf (readAt (joinSegs segs rest)))).take (chanIndex 14) =
        [toFloat (decimalVal (segs.getD 2 [])), toFloat (decimalVal (segs.getD 3 [])),
         toFloat (decimalVal (segs.getD 4 [])), toFloat (decimalVal (segs.getD 5 [])),
         toFloat (decimalVal (segs.getD 6 [])), toFloat (decimalVal (segs.getD 7 [])),
         toFloat (decimalVal (segs.getD 8 [])), toFloat (decimalVal (segs.getD 9 [])),
         toFloat (decimalVal (segs.getD 10 [])), phaseMag m t,
         toFloat (decimalVal (segs.getD 11 [])), toFloat (decimalVal (segs.getD 12 [])),
         toFloat (decimalVal (segs.getD 13 []))] := by
      unfold allVals
      rw [valOf_ok _ 1 _ (hread 1 (by omega) (by omega)),
        valOf_ok _ 2 _ (hread 2 (by omega) (by omega)),
        valOf_ok _ 3 _ (hread 3 (by omega) (by omega)),
        valOf_ok _ 4 _ (hread 4 (by omega) (by omega)),
        valOf_ok _ 5 _ (hread 5 (by omega) (by omega)),
        valOf_ok _ 6 _ (hread 6 (by omega) (by omega)),
        valOf_ok _ 7 _ (hread 7 (by omega) (by omega)),
        valOf_ok _ 8 _ (hread 8 (by omega) (by omega)),
        valOf_ok _ 9 _ (hread 9 (by omega) (by omega)),
        valOf_ok _ 10 _ (hread 10 (by omega) (by omega)),
        valOf_ok _ 11 _ (hread 11 (by omega) (by omega)),
        valOf_ok _ 12 _ (hread 12 (by omega) (by omega))]
      rfl
    rw [hv]

/-- Witness for C16: the frame `Data:1:2:...:13:` of the sender, at time 3: the
altitude read is `stoi` of `Data` and throws `invalid_argument` after thirteen
channels were appended to. -/
theorem short_frame_altitude_witness :
    senderSegs.length = 14 ∧ (∀ f ∈ senderSegs, ':' ∉ f) ∧ ':' ∉ ([] : List Char)
    ∧ readAt (joinSegs senderSegs []) 14 = stoi "Data".toList
    ∧ ∃ m' mag, ingest Main.init (joinSegs senderSegs []) 3 = .error (Exn.invalid_argument, m')
        ∧ m'.altitude = Main.init.altitude
        ∧ m'.chans = addFirst 3
            [toFloat (decimalVal (senderSegs.getD 2 [])),
             toFloat (decimalVal (senderSegs.getD 3 [])),
             toFloat (decimalVal (senderSegs.getD 4 [])),
             toFloat (decimalVal (senderSegs.getD 5 [])),
             toFloat (decimalVal (senderSegs.getD 6 [])),
             toFloat (decimalVal (senderSegs.getD 7 [])),
             toFloat (decimalVal (senderSegs.getD 8 [])),
             toFloat (decimalVal (senderSegs.getD 9 [])),
             toFloat (decimalVal (senderSegs.getD 10 [])), mag,
             toFloat (decimalVal (senderSegs.getD 11 [])),
             toFloat (decimalVal (senderSegs.getD 12 [])),
             toFloat (decimalVal (senderSegs.getD 13 []))] Main.init.chans :=
  ⟨by decide, by decide, by decide,
   (short_frame_altitude Main.init 3 senderSegs [] (by decide) (by decide) (by decide)).2.2.2.1,
   (short_frame_altitude Main.init 3 senderSegs [] (by decide) (by decide) (by decide)).2.2.2.2
      Exn.invalid_argument (by decide) (by decide)⟩

/-! ## The spans in every reachable state -/

theorem tableBlock_spans (r : Main) (i : FrameInput) :
    (tableBlock r i).spans = r.spans.take 13 ++ [r.history]
    ∧ (tableBlock r i).history = r.history := by
  unfold tableBlock
  cases i.releasePressed <;> cases i.cancelPressed <;> exact ⟨rfl, rfl⟩

theorem tableBlock_spansOk (r : Main) (i : FrameInput) (h : r.spansOk) :
    (tableBlock r i).spansOk := by
  obtain ⟨hh, hs⟩ := h
  obtain ⟨t1, t2⟩ := tableBlock_spans r i
  refine ⟨t2.trans hh, Or.inr ?_⟩
  rw [t1, hh]
  rcases hs with hs | hs <;> rw [hs] <;> rfl

theorem settle_spansOk (p : Main) (s : List Char) (i : FrameInput) (h : p.spansOk) :
    (settle (ingest p s i.currentTime) i).spansOk := by
  rcases hI : ingest p s i.currentTime with ⟨e, r⟩ | r
  · have hs := ingest_spans p r s i.currentTime (Or.inr ⟨e, hI⟩)
    have hc := (control_fields p r (ingest_control p r s i.currentTime (Or.inr ⟨e, hI⟩))).2.1
    have hr : r.spansOk := ⟨hc.trans h.1, by rw [hs]; exact h.2⟩
    exact hr
  · have hs := ingest_spans p r s i.currentTime (Or.inl hI)
    have hc := (control_fields p r (ingest_control p r s i.currentTime (Or.inl hI))).2.1
    have hr : r.spansOk := ⟨hc.trans h.1, by rw [hs]; exact h.2⟩
    show (if i.tableShown then tableBlock r i else r).spansOk
    by_cases ht : i.tableShown = true
    · rw [if_pos ht]
      exact tableBlock_spansOk r i hr
    · rw [if_neg ht]
      exact hr

theorem step_spansOk (m : Main) (ev : Event) (h : m.spansOk) : (step m ev).spansOk := by
  unfold step
  by_cases hcr : m.crashed.isSome = true
  · rw [if_pos hcr]
    exact h
  · rw [if_neg hcr]
    cases ev with
    | frame i =>
      show (frame m i).spansOk
      rw [frame_eq]
      by_cases hc : i.connected = true
      · rw [if_pos hc]
        apply settle_spansOk
        rcases hd : m.dataThread with task | text
        · rw [poll_running m _ task hd]
          exact h
        · rw [poll_ready m _ text hd]
          exact h
      · rw [if_neg hc]
        exact h
    | complete reply =>
      show (complete m reply).spansOk
      unfold complete
      rcases hd : m.dataThread with task | text
      · cases task <;> exact h
      · exact h

/-- In every state the program reaches the thirteen channels other than `altitude`
have span 10, whatever `history` is assigned to `altitude.Span`. -/
theorem run_spansOk (evs : List Event) : ∀ m : Main, m.spansOk → (run m evs).spansOk := by
  induction evs with
  | nil => intro m h; exact h
  | cons ev evs ih =>
    intro m h
    exact ih (step m ev) (step_spansOk m ev h)

theorem init_spansOk : Main.init.spansOk := ⟨rfl, Or.inl (by decide)⟩

end TelemetryView
